import Mathlib

/-!
Verification of the pkillr session engine against its specification.

The definitions below are a shallow embedding of `crates/pkillr/src/app.rs`
and `crates/pkillr/src/signals.rs`.  Conventions used throughout:

* Machine integers (`u32` pids, `u64` byte counts) are modelled as `Nat`;
  none of the verified computations can overflow a `u64` for realistic
  inputs, and the two sides of every proved equality perform identical
  additions, so the numeric model does not affect any statement.
* `f32` CPU percentages are modelled by an abstract additive type `α`
  (with `Add`/`Zero` instances) in the tree-builder embedding: the source
  only ever adds these values, and every proved equality compares two
  computations that perform the same additions in the same order, so the
  statements hold for `f32` addition as well as for any other instance.
  Concrete witnesses instantiate `α` with `Nat`.
* Rust recursion that is not structurally terminating (the tree flatten,
  the post-order walk) is modelled with an explicit fuel parameter
  returning `Option`; `none` for every fuel corresponds to divergence of
  the source.
* `HashMap` iteration order is unspecified in Rust; the model iterates in
  snapshot-list order.  Every proved statement is either independent of
  that order or concerns a concrete input where the order is irrelevant.
-/

namespace Pkillr

/-- ASCII lowercase of a character, mirroring Rust `u8::to_ascii_lowercase`. -/
def asciiLowerChar (c : Char) : Char :=
  if 'A' ≤ c ∧ c ≤ 'Z' then Char.ofNat (c.toNat + 32) else c

/-- ASCII lowercase of a string, mirroring Rust `str::to_ascii_lowercase`. -/
def asciiLower (s : String) : String :=
  String.mk (s.toList.map asciiLowerChar)

/-- `needle` occurs at the start of `hay` (helper for substring search). -/
def charsHavePre : List Char → List Char → Bool
  | [], _ => true
  | _ :: _, [] => false
  | c :: cs, h :: hs => c == h && charsHavePre cs hs

/-- `needle` occurs somewhere in `hay` (helper for substring search). -/
def charsFindSub (needle : List Char) : List Char → Bool
  | [] => needle.isEmpty
  | h :: hs => charsHavePre needle (h :: hs) || charsFindSub needle hs

/-- Rust `str::contains(pat)`: substring containment. -/
def strContains (s pat : String) : Bool :=
  charsFindSub pat.toList s.toList

/-- Rust `str::trim` (whitespace from both ends; queries are ASCII, so
the core whitespace classifier matches Rust's). -/
def strTrim (s : String) : String :=
  String.mk (((s.toList.dropWhile Char.isWhitespace).reverse.dropWhile
    Char.isWhitespace).reverse)

/-- Rust `str::is_empty`. -/
def strIsEmpty (s : String) : Bool :=
  s.toList.isEmpty

/-- Rust `str::starts_with`. -/
def strStarts (s pre : String) : Bool :=
  charsHavePre pre.toList s.toList

/-- `ProcessSnapshot` from `process.rs` (`ProcessInfo` in the source).
`cpu` is the `f32` `cpu_percent` field, modelled by the abstract additive
type `α`; `mem` is the `u64` `memory_bytes` field, modelled by `β`.
The lifecycle-state enum and the running-duration are display-only for the
verified components; `runtime` is kept (as milliseconds) for the sort
comparator, the state enum is omitted. -/
structure ProcessInfo (α β : Type) where
  pid : Nat
  name : String
  cpu : α
  mem : β
  user : String
  runtime : Nat
  cmdline : List String
  cwd : Option String
  environment : List String
  ppid : Option Nat
deriving Repr, DecidableEq

/-- `RiskLevel` from `app.rs`: `Elevated < Critical`. -/
inductive RiskLevel
  | elevated
  | critical
deriving Repr, DecidableEq

/-- Numeric rank used to compare risk levels (`Ord` derive in the source). -/
def RiskLevel.rank : RiskLevel → Nat
  | .elevated => 0
  | .critical => 1

/-- `RiskInfo` from `app.rs`. -/
structure RiskInfo where
  level : RiskLevel
  reason : String
deriving Repr, DecidableEq

/-- `combine_risk` from `app.rs`: keep the existing reason unless the new
level is strictly higher. -/
def combineRisk (current : Option RiskInfo) (level : RiskLevel) (reason : String) :
    Option RiskInfo :=
  match current with
  | some existing =>
    if existing.level.rank ≥ level.rank then some existing
    else some ⟨level, reason⟩
  | none => some ⟨level, reason⟩

/-- `CRITICAL_NAME_PATTERNS` from `app.rs`. -/
def criticalNameTable : List (String × RiskLevel × String) :=
  [("systemd", .critical, "system init"),
   ("dbus-daemon", .elevated, "dbus session"),
   ("dbus-broker", .elevated, "dbus broker"),
   ("gnome-shell", .critical, "desktop shell"),
   ("plasmashell", .critical, "desktop shell"),
   ("kwin", .critical, "window manager"),
   ("mutter", .critical, "window manager"),
   ("sway", .critical, "window manager"),
   ("hyprland", .critical, "window manager"),
   ("wayfire", .critical, "window manager"),
   ("i3", .critical, "window manager"),
   ("xfce4-session", .elevated, "desktop session"),
   ("xorg", .critical, "display server"),
   ("xwayland", .elevated, "display bridge"),
   ("pipewire", .elevated, "media service"),
   ("pulseaudio", .elevated, "audio server"),
   ("tmux", .elevated, "terminal multiplexer"),
   ("wezterm", .elevated, "terminal host"),
   ("alacritty", .elevated, "terminal host"),
   ("kitty", .elevated, "terminal host")]

/-- `App::assess_risk` from `app.rs`. `appParentPid` is the `parent_pid`
field of the `App` (the caller's shell). -/
def assessRisk {α β : Type} (appParentPid : Nat) (info : ProcessInfo α β) :
    Option RiskInfo :=
  if info.pid == 1 then some ⟨.critical, "init process"⟩
  else if info.pid == appParentPid then some ⟨.critical, "current shell"⟩
  else
    let name := asciiLower info.name
    let result := criticalNameTable.foldl
      (fun result entry =>
        if strContains name entry.1 then combineRisk result entry.2.1 entry.2.2
        else result)
      none
    if info.user == "root" then combineRisk result .elevated "root-owned process"
    else result

/-- `TreeRow` from `app.rs`.  The `prefix` field of the source (the
ancestor-branch glyph string) is named `glyphs` here. -/
structure TreeRow (α β : Type) where
  pid : Nat
  ppid : Option Nat
  name : String
  cpu : α
  mem : β
  subtreeCpu : α
  subtreeMem : β
  depth : Nat
  hasChildren : Bool
  collapsed : Bool
  glyphs : String
  risk : Option RiskInfo
deriving Repr, DecidableEq

/-- `build_tree_prefix` from `app.rs`: the glyph string derived from the
stack of "is this ancestor the last sibling" booleans. -/
def buildBranchGlyphs : List Bool → String
  | [] => ""
  | [b] => if b then "└─ " else "├─ "
  | b :: rest => (if b then "   " else "│  ") ++ buildBranchGlyphs rest

/-- The accumulation loop of the collapsed branch of `flatten_tree_node`
and of `subtree_totals`: fold child totals into an accumulator, failing if
any child computation fails. -/
def optFoldSub {α β : Type} [Add α] [Add β] (step : Nat → Option (α × β)) :
    List Nat → α × β → Option (α × β)
  | [], acc => some acc
  | kid :: rest, acc =>
    match step kid with
    | none => none
    | some cm => optFoldSub step rest (acc.1 + cm.1, acc.2 + cm.2)

/-- `App::subtree_totals` from `app.rs`: the row-free recursive sum of a
node's own CPU/memory and all of its descendants.  The source recursion
has no termination guard; `fuel` makes divergence explicit as `none`. -/
def subtreeTotals {α β : Type} [Add α] [Add β] [Zero α] [Zero β] :
    Nat → (Nat → Option (ProcessInfo α β)) → (Nat → List Nat) → Nat → Option (α × β)
  | 0, _, _, _ => none
  | fuel + 1, map, children, pid =>
    match map pid with
    | none => some (0, 0)
    | some info =>
      optFoldSub (fun kid => subtreeTotals fuel map children kid)
        (children pid) (info.cpu, info.mem)

/-- The child loop of the expanded branch of `flatten_tree_node`: each
child is flattened with the branch stack extended by its "is last sibling"
flag, rows are appended, totals accumulated. -/
def optFoldRows {α β : Type} [Add α] [Add β]
    (step : Nat → List Bool → Option (List (TreeRow α β) × α × β))
    (stack : List Bool) :
    List Nat → List (TreeRow α β) × α × β → Option (List (TreeRow α β) × α × β)
  | [], acc => some acc
  | kid :: rest, acc =>
    match step kid (stack ++ [rest.isEmpty]) with
    | none => none
    | some out => optFoldRows step stack rest (acc.1 ++ out.1, acc.2.1 + out.2.1, acc.2.2 + out.2.2)

/-- `App::flatten_tree_node` from `app.rs`.  Returns the rows emitted for
the subtree rooted at `pid` (head row first) together with the subtree
CPU/memory totals.  The source pushes the node's row with its own values
and patches the subtree fields in place after the children are processed;
the model constructs the final row directly, which yields the same list.
The source recursion has no already-emitted check and no termination
guard; `fuel` makes divergence explicit as `none`. -/
def flattenTreeNode {α β : Type} [Add α] [Add β] [Zero α] [Zero β] :
    Nat → (Nat → Option (ProcessInfo α β)) → (Nat → List Nat) → (Nat → Bool) →
    Nat → Nat → List Bool → Option (List (TreeRow α β) × α × β)
  | 0, _, _, _, _, _, _ => none
  | fuel + 1, map, children, collapsedSet, appParentPid, pid, stack =>
    match map pid with
    | none => some ([], 0, 0)
    | some info =>
      let depth := stack.length
      let glyphs := buildBranchGlyphs stack
      let kids := children pid
      let hasChildren := !kids.isEmpty
      let collapsed := collapsedSet pid
      let risk := assessRisk appParentPid info
      if collapsed then
        match optFoldSub (fun kid => subtreeTotals fuel map children kid)
            kids (info.cpu, info.mem) with
        | none => none
        | some cm =>
          some ([⟨pid, info.ppid, info.name, info.cpu, info.mem, cm.1, cm.2,
                  depth, hasChildren, collapsed, glyphs, risk⟩], cm.1, cm.2)
      else
        match optFoldRows
            (fun kid st => flattenTreeNode fuel map children collapsedSet appParentPid kid st)
            stack kids ([], info.cpu, info.mem) with
        | none => none
        | some out =>
          some (⟨pid, info.ppid, info.name, info.cpu, info.mem, out.2.1, out.2.2,
                  depth, hasChildren, collapsed, glyphs, risk⟩ :: out.1, out.2.1, out.2.2)

/-- Snapshot-map lookup, modelling `processes.into_iter().map(|p|(p.pid,p)).collect()`
into a `HashMap` (later duplicates overwrite earlier ones). -/
def mapLookup {α β : Type} (procs : List (ProcessInfo α β)) (pid : Nat) :
    Option (ProcessInfo α β) :=
  procs.reverse.find? (fun p => p.pid == pid)

/-- The effective parent key used by `rebuild_tree_nodes`: the declared
parent if it is present in the snapshot map, otherwise the root bucket 0. -/
def effParent {α β : Type} (procs : List (ProcessInfo α β)) (info : ProcessInfo α β) : Nat :=
  match info.ppid with
  | some p => if (mapLookup procs p).isSome then p else 0
  | none => 0

/-- The unsorted child bucket of `rebuild_tree_nodes` for one parent key. -/
def childrenRaw {α β : Type} (procs : List (ProcessInfo α β)) (parent : Nat) : List Nat :=
  (procs.filter (fun p => effParent procs p == parent)).map (fun p => p.pid)

/-- The sibling comparator of `rebuild_tree_nodes`: CPU% descending
(`partial_cmp` on `f32`, abstracted as `cmpCpu`), then name ascending. -/
def childOrd {α β : Type} (cmpCpu : α → α → Ordering)
    (map : Nat → Option (ProcessInfo α β)) (a b : Nat) : Ordering :=
  match map a, map b with
  | some pa, some pb => (cmpCpu pb.cpu pa.cpu).then (compare pa.name pb.name)
  | _, _ => .eq

/-- Stable insertion into a list sorted by `ord` (insert after equals). -/
def insOrd (ord : Nat → Nat → Ordering) (x : Nat) : List Nat → List Nat
  | [] => [x]
  | y :: ys => if ord y x == .gt then x :: y :: ys else y :: insOrd ord x ys

/-- Stable sort by an `Ordering` comparator, modelling Rust's stable
`sort_by`. -/
def sortOrd (ord : Nat → Nat → Ordering) (l : List Nat) : List Nat :=
  l.foldl (fun acc x => insOrd ord x acc) []

/-- Rust `Vec::dedup`: remove consecutive duplicates. -/
def dedupAdj : List Nat → List Nat
  | [] => []
  | [x] => [x]
  | x :: y :: rest =>
    if x == y then dedupAdj (y :: rest) else x :: dedupAdj (y :: rest)

/-- The sorted child list of `rebuild_tree_nodes` for one parent key. -/
def childrenSorted {α β : Type} (cmpCpu : α → α → Ordering)
    (procs : List (ProcessInfo α β)) (parent : Nat) : List Nat :=
  sortOrd (childOrd cmpCpu (mapLookup procs)) (childrenRaw procs parent)

/-- One sweep of `rebuild_tree_nodes`: flatten each listed pid with a
cleared branch stack and concatenate the emitted rows. -/
def sweepFold {α β : Type} (step : Nat → Option (List (TreeRow α β))) :
    List Nat → Option (List (TreeRow α β))
  | [] => some []
  | p :: rest =>
    match step p with
    | none => none
    | some rows =>
      match sweepFold step rest with
      | none => none
      | some more => some (rows ++ more)

/-- The root list of `rebuild_tree_nodes`: bucket 0 of the child map,
falling back to all map keys when the bucket is empty, then sorted by the
CPU/name comparator and deduplicated (`Vec::dedup`, adjacent only). -/
def rebuildRoots {α β : Type} (cmpCpu : α → α → Ordering)
    (procs : List (ProcessInfo α β)) : List Nat :=
  let roots0 := childrenSorted cmpCpu procs 0
  let roots1 := if roots0.isEmpty then procs.map (fun p => p.pid) else roots0
  dedupAdj (sortOrd (childOrd cmpCpu (mapLookup procs)) roots1)

/-- One `flatten_tree_node` call of `rebuild_tree_nodes` (branch stack
cleared, only the emitted rows kept).  The collapse predicate reflects
`tree_collapsed.retain(|pid| map.contains_key(pid))`. -/
def rebuildStep {α β : Type} [Add α] [Add β] [Zero α] [Zero β]
    (fuel : Nat) (cmpCpu : α → α → Ordering) (appParentPid : Nat)
    (procs : List (ProcessInfo α β)) (collapsedIn : Nat → Bool) (pid : Nat) :
    Option (List (TreeRow α β)) :=
  (flattenTreeNode fuel (mapLookup procs) (fun p => childrenSorted cmpCpu procs p)
      (fun p => collapsedIn p && (mapLookup procs p).isSome) appParentPid pid []).map
    (fun out => out.1)

/-- The row-construction part of `App::rebuild_tree_nodes` from `app.rs`:
build the parent→children buckets, sort sibling groups and roots by the
CPU/name comparator, flatten every root, then run the second sweep over
every map key not recorded in `visited`.  The source inserts only the
*root* pids into `visited` (`visited.insert(*root_pid)` in the first loop;
`flatten_tree_node` never touches the set), and the model reproduces
exactly that, so the second sweep runs over every non-root map key.
Selection relocation and scroll clamping are App-state bookkeeping,
handled in the session-state embedding. -/
def rebuildTreeRows {α β : Type} [Add α] [Add β] [Zero α] [Zero β]
    (fuel : Nat) (cmpCpu : α → α → Ordering) (appParentPid : Nat)
    (procs : List (ProcessInfo α β)) (collapsedIn : Nat → Bool) :
    Option (List (TreeRow α β)) :=
  let roots := rebuildRoots cmpCpu procs
  match sweepFold (rebuildStep fuel cmpCpu appParentPid procs collapsedIn) roots with
  | none => none
  | some rows1 =>
    match sweepFold (rebuildStep fuel cmpCpu appParentPid procs collapsedIn)
        ((procs.map (fun p => p.pid)).filter (fun p => !(roots.contains p))) with
    | none => none
    | some rows2 => some (rows1 ++ rows2)

/-- If every step of the expanded-children fold agrees with a row-free
step on the totals it produces, then the whole fold agrees with the
row-free fold `optFoldSub` on its totals. -/
theorem optFoldRows_totals {α β : Type} [Add α] [Add β]
    (stepR : Nat → List Bool → Option (List (TreeRow α β) × α × β))
    (stepS : Nat → Option (α × β))
    (hstep : ∀ k st out, stepR k st = some out → stepS k = some (out.2.1, out.2.2)) :
    ∀ (kids : List Nat) (stack : List Bool) (acc : List (TreeRow α β) × α × β) out,
      optFoldRows stepR stack kids acc = some out →
      optFoldSub stepS kids (acc.2.1, acc.2.2) = some (out.2.1, out.2.2) := by
  intro kids
  induction kids with
  | nil =>
    intro stack acc out h
    simp only [optFoldRows, Option.some.injEq] at h
    subst h
    rfl
  | cons k rest ih =>
    intro stack acc out h
    simp only [optFoldRows] at h
    cases hk : stepR k (stack ++ [rest.isEmpty]) with
    | none => rw [hk] at h; exact absurd h (by simp)
    | some kout =>
      rw [hk] at h
      have hs := hstep k _ kout hk
      simpa only [optFoldSub, hs] using ih stack _ out h

/-- The totals returned by `flatten_tree_node` coincide with the row-free
recursive sum `subtree_totals`, for every collapse predicate. -/
theorem flatten_totals {α β : Type} [Add α] [Add β] [Zero α] [Zero β] :
    ∀ (fuel : Nat) (map : Nat → Option (ProcessInfo α β)) (children : Nat → List Nat)
      (collapsedSet : Nat → Bool) (appParentPid pid : Nat) (stack : List Bool) out,
      flattenTreeNode fuel map children collapsedSet appParentPid pid stack = some out →
      subtreeTotals fuel map children pid = some (out.2.1, out.2.2) := by
  intro fuel
  induction fuel with
  | zero => intro _ _ _ _ _ _ _ h; exact absurd h (by simp [flattenTreeNode])
  | succ fuel ih =>
    intro map children collapsedSet appParentPid pid stack out h
    simp only [flattenTreeNode] at h
    simp only [subtreeTotals]
    cases hmp : map pid with
    | none =>
      rw [hmp] at h
      simp only [Option.some.injEq] at h
      subst h
      rfl
    | some info =>
      rw [hmp] at h
      cases hcol : collapsedSet pid with
      | true =>
        rw [hcol] at h
        simp only [if_true] at h
        cases hfs : optFoldSub (fun kid => subtreeTotals fuel map children kid)
            (children pid) (info.cpu, info.mem) with
        | none => rw [hfs] at h; exact absurd h (by simp)
        | some cm =>
          rw [hfs] at h
          simp only [Option.some.injEq] at h
          subst h
          exact hfs
      | false =>
        rw [hcol] at h
        simp only [Bool.false_eq_true, if_false] at h
        cases hfr : optFoldRows
            (fun kid st => flattenTreeNode fuel map children collapsedSet appParentPid kid st)
            stack (children pid) ([], info.cpu, info.mem) with
        | none => rw [hfr] at h; exact absurd h (by simp)
        | some fout =>
          rw [hfr] at h
          simp only [Option.some.injEq] at h
          subst h
          exact optFoldRows_totals _ _ (fun k st o hk => ih map children collapsedSet appParentPid k st o hk)
            (children pid) stack ([], info.cpu, info.mem) fout hfr

/-- When the flattened pid is present in the snapshot map, the first row
emitted by `flatten_tree_node` is that pid's row and it carries the
returned subtree totals. -/
theorem flatten_head {α β : Type} [Add α] [Add β] [Zero α] [Zero β]
    (fuel : Nat) (map : Nat → Option (ProcessInfo α β)) (children : Nat → List Nat)
    (collapsedSet : Nat → Bool) (appParentPid pid : Nat) (stack : List Bool) (out : List (TreeRow α β) × α × β)
    (h : flattenTreeNode fuel map children collapsedSet appParentPid pid stack = some out) :
    ∀ info, map pid = some info →
      ∃ row rest, out.1 = row :: rest ∧ row.pid = pid ∧ row.cpu = info.cpu ∧
        row.mem = info.mem ∧ row.subtreeCpu = out.2.1 ∧ row.subtreeMem = out.2.2 := by
  intro info hmp
  cases fuel with
  | zero => exact absurd h (by simp [flattenTreeNode])
  | succ fuel =>
    simp only [flattenTreeNode, hmp] at h
    cases hcol : collapsedSet pid with
    | true =>
      rw [hcol] at h
      simp only [if_true] at h
      cases hfs : optFoldSub (fun kid => subtreeTotals fuel map children kid)
          (children pid) (info.cpu, info.mem) with
      | none => rw [hfs] at h; exact absurd h (by simp)
      | some cm =>
        rw [hfs] at h
        simp only [Option.some.injEq] at h
        subst h
        exact ⟨_, [], rfl, rfl, rfl, rfl, rfl, rfl⟩
    | false =>
      rw [hcol] at h
      simp only [Bool.false_eq_true, if_false] at h
      cases hfr : optFoldRows
          (fun kid st => flattenTreeNode fuel map children collapsedSet appParentPid kid st)
          stack (children pid) ([], info.cpu, info.mem) with
      | none => rw [hfr] at h; exact absurd h (by simp)
      | some fout =>
        rw [hfr] at h
        simp only [Option.some.injEq] at h
        subst h
        exact ⟨_, fout.1, rfl, rfl, rfl, rfl, rfl, rfl⟩

/-- C1: for every snapshot map, child map and collapse predicate, the
subtree CPU/memory totals that `flatten_tree_node` reports — both as its
return value and on the emitted `TreeRow` of the node — equal
`subtree_totals`, the collapse-free recursive sum of the node's own
CPU/memory and that of all of its descendants.  The collapse predicate is
universally quantified and `subtree_totals` does not depend on it, so
collapsing changes only which rows are emitted, never the reported
aggregates. -/
theorem c1_subtree_totals_collapse_invariant {α β : Type} [Add α] [Add β] [Zero α] [Zero β]
    (fuel : Nat) (map : Nat → Option (ProcessInfo α β)) (children : Nat → List Nat)
    (collapsedSet : Nat → Bool) (appParentPid pid : Nat) (stack : List Bool)
    (out : List (TreeRow α β) × α × β)
    (h : flattenTreeNode fuel map children collapsedSet appParentPid pid stack = some out) :
    subtreeTotals fuel map children pid = some (out.2.1, out.2.2) ∧
    (∀ info, map pid = some info →
      ∃ row rest, out.1 = row :: rest ∧ row.pid = pid ∧
        row.subtreeCpu = out.2.1 ∧ row.subtreeMem = out.2.2) := by
  refine ⟨flatten_totals fuel map children collapsedSet appParentPid pid stack out h, ?_⟩
  intro info hmp
  obtain ⟨row, rest, h1, h2, _, _, h5, h6⟩ :=
    flatten_head fuel map children collapsedSet appParentPid pid stack out h info hmp
  exact ⟨row, rest, h1, h2, h5, h6⟩

/-- A two-process snapshot (root 5, child 6) used as a concrete input. -/
def exRoot : ProcessInfo Nat Nat :=
  { pid := 5, name := "alpha", cpu := 1, mem := 7, user := "u", runtime := 0,
    cmdline := [], cwd := none, environment := [], ppid := none }

/-- The child process of the concrete two-process snapshot. -/
def exKid : ProcessInfo Nat Nat :=
  { pid := 6, name := "beta", cpu := 2, mem := 9, user := "u", runtime := 0,
    cmdline := [], cwd := none, environment := [], ppid := some 5 }

/-- The concrete two-process snapshot. -/
def exProcs : List (ProcessInfo Nat Nat) := [exRoot, exKid]

/-- Witness for C1 at a concrete snapshot: flattening root 5 with the
child collapsed under pid 5 reports the collapse-free subtree totals
(1+2 CPU, 7+9 memory). -/
theorem c1_witness :
    subtreeTotals 3 (mapLookup exProcs) (fun p => childrenSorted compare exProcs p) 5 =
      some (3, 16) :=
  (c1_subtree_totals_collapse_invariant 3 (mapLookup exProcs)
    (fun p => childrenSorted compare exProcs p) (fun p => p == 5) 0 5 []
    ([⟨5, none, "alpha", 1, 7, 3, 16, 0, true, true, "", none⟩], 3, 16) rfl).1

/-- C2 (as stated, refuted — the code drops no process but emits
duplicates): rebuilding the tree for the two-process snapshot
`[5, 6 (parent 5)]` with an empty collapse set emits 3 rows, not one per
snapshot process: pid 6 is emitted twice, once under its parent and once
again by the second sweep, because `rebuild_tree_nodes` records only root
pids in `visited` and `flatten_tree_node` never marks the pids it emits. -/
theorem c2_second_sweep_duplicates_rows :
    exProcs.length = 2 ∧
    (rebuildTreeRows 8 compare 0 exProcs (fun _ => false)).map
        (fun rows => (rows.length, rows.countP (fun r => r.pid == 6))) =
      some (3, 2) := by
  exact ⟨rfl, rfl⟩

/-- A two-process snapshot whose parent references form a cycle
(2 ↔ 3), as contradictory provider data. -/
def cycA : ProcessInfo Nat Nat :=
  { pid := 2, name := "ca", cpu := 1, mem := 4, user := "u", runtime := 0,
    cmdline := [], cwd := none, environment := [], ppid := some 3 }

/-- Second member of the cyclic snapshot. -/
def cycB : ProcessInfo Nat Nat :=
  { pid := 3, name := "cb", cpu := 0, mem := 5, user := "u", runtime := 0,
    cmdline := [], cwd := none, environment := [], ppid := some 2 }

/-- The cyclic snapshot. -/
def cycProcs : List (ProcessInfo Nat Nat) := [cycA, cycB]

/-- On the cyclic snapshot, `flatten_tree_node` runs out of any amount of
fuel from either node: the source recursion never terminates. -/
theorem flatten_cycle_none (cs : Nat → Bool) (h2 : cs 2 = false) (h3 : cs 3 = false) :
    ∀ (fuel : Nat) (stack : List Bool),
      flattenTreeNode fuel (mapLookup cycProcs)
          (fun p => childrenSorted compare cycProcs p) cs 0 2 stack = none ∧
      flattenTreeNode fuel (mapLookup cycProcs)
          (fun p => childrenSorted compare cycProcs p) cs 0 3 stack = none := by
  intro fuel
  induction fuel with
  | zero => intro stack; exact ⟨rfl, rfl⟩
  | succ fuel ih =>
    intro stack
    constructor
    · have hm : mapLookup cycProcs 2 = some cycA := rfl
      have hc : childrenSorted compare cycProcs 2 = [3] := rfl
      simp only [flattenTreeNode, hm, hc, h2, Bool.false_eq_true, if_false]
      simp only [optFoldRows, (ih (stack ++ [List.isEmpty []])).2]
    · have hm : mapLookup cycProcs 3 = some cycB := rfl
      have hc : childrenSorted compare cycProcs 3 = [2] := rfl
      simp only [flattenTreeNode, hm, hc, h3, Bool.false_eq_true, if_false]
      simp only [optFoldRows, (ih (stack ++ [List.isEmpty []])).1]

/-- C9 (as stated, refuted — the code has no already-emitted check): on a
snapshot with cyclic parent references (pid 2 and pid 3 each naming the
other as parent), the depth-first flatten never terminates — it returns
`none` for every fuel — and so does the whole tree rebuild.  The source
detects nothing: `flatten_tree_node` consults no visited set during
descent. -/
theorem c9_flatten_diverges_on_cycle :
    (∀ (fuel : Nat) (stack : List Bool),
      flattenTreeNode fuel (mapLookup cycProcs)
          (fun p => childrenSorted compare cycProcs p) (fun _ => false) 0 2 stack = none) ∧
    (∀ fuel : Nat, rebuildTreeRows fuel compare 0 cycProcs (fun _ => false) = none) := by
  constructor
  · intro fuel stack
    exact (flatten_cycle_none (fun _ => false) rfl rfl fuel stack).1
  · intro fuel
    have hs : rebuildStep fuel compare 0 cycProcs (fun _ => false) 2 = none := by
      have := (flatten_cycle_none
        (fun p => (fun _ => false) p && (mapLookup cycProcs p).isSome) rfl rfl fuel []).1
      simp only [rebuildStep, this, Option.map_none']
    have hr : rebuildRoots compare cycProcs = [2, 3] := rfl
    simp only [rebuildTreeRows, hr, sweepFold, hs,
      show cycA.pid = 2 from rfl, show cycB.pid = 3 from rfl]

/-- The `Signal` enum from `signals.rs`.  The source's `SIGIO` variant is
written here under its POSIX alias `Sigpoll` (same signal, number 29); its
display name below is the source's `"SIGIO"`.  The `number`/`description`
helpers are menu-display only and are omitted. -/
inductive Signal
  | Sighup | Sigint | Sigquit | Sigill | Sigtrap | Sigabrt | Sigbus | Sigfpe
  | Sigkill | Sigusr1 | Sigsegv | Sigusr2 | Sigpipe | Sigalrm | Sigterm
  | Sigstkflt | Sigchld | Sigcont | Sigstop | Sigtstp | Sigttin | Sigttou
  | Sigurg | Sigxcpu | Sigxfsz | Sigvtalrm | Sigprof | Sigwinch | Sigpoll
  | Sigpwr | Sigsys
deriving Repr, DecidableEq

/-- `Signal::name` from `signals.rs`. -/
def Signal.name : Signal → String
  | .Sighup => "SIGHUP"
  | .Sigint => "SIGINT"
  | .Sigquit => "SIGQUIT"
  | .Sigill => "SIGILL"
  | .Sigtrap => "SIGTRAP"
  | .Sigabrt => "SIGABRT"
  | .Sigbus => "SIGBUS"
  | .Sigfpe => "SIGFPE"
  | .Sigkill => "SIGKILL"
  | .Sigusr1 => "SIGUSR1"
  | .Sigsegv => "SIGSEGV"
  | .Sigusr2 => "SIGUSR2"
  | .Sigpipe => "SIGPIPE"
  | .Sigalrm => "SIGALRM"
  | .Sigterm => "SIGTERM"
  | .Sigstkflt => "SIGSTKFLT"
  | .Sigchld => "SIGCHLD"
  | .Sigcont => "SIGCONT"
  | .Sigstop => "SIGSTOP"
  | .Sigtstp => "SIGTSTP"
  | .Sigttin => "SIGTTIN"
  | .Sigttou => "SIGTTOU"
  | .Sigurg => "SIGURG"
  | .Sigxcpu => "SIGXCPU"
  | .Sigxfsz => "SIGXFSZ"
  | .Sigvtalrm => "SIGVTALRM"
  | .Sigprof => "SIGPROF"
  | .Sigwinch => "SIGWINCH"
  | .Sigpoll => "SIGIO"
  | .Sigpwr => "SIGPWR"
  | .Sigsys => "SIGSYS"

/-- `is_dangerous_signal` from `app.rs`. -/
def isDangerousSignal : Signal → Bool
  | .Sigkill | .Sigstop | .Sigabrt | .Sigbus | .Sigfpe | .Sigill | .Sigsegv
  | .Sigtrap | .Sigsys => true
  | _ => false

/-- Process snapshots as used by the signal engine and the session state
machine: `f32` CPU% modelled as `Rat` (the source values are NaN-free and
only compared/added), `u64` byte counts as `Nat`. -/
abbrev PInfo := ProcessInfo Rat Nat

instance {ε α : Type} [DecidableEq ε] [DecidableEq α] : DecidableEq (Except ε α) := fun x y =>
  match x, y with
  | .ok a, .ok b =>
    if h : a = b then isTrue (h ▸ rfl) else isFalse (fun he => h (Except.ok.inj he))
  | .error a, .error b =>
    if h : a = b then isTrue (h ▸ rfl) else isFalse (fun he => h (Except.error.inj he))
  | .ok _, .error _ => isFalse (fun h => Except.noConfusion h)
  | .error _, .ok _ => isFalse (fun h => Except.noConfusion h)

/-- `SignalEvent` from `signals.rs`; the wall-clock `timestamp` field is
not representable in a pure embedding and is omitted (no verified
behaviour reads it). -/
structure SignalEvent where
  pid : Nat
  processName : String
  signal : Signal
  result : Except String Unit
deriving Repr, DecidableEq

/-- The errno outcomes of the raw `kill` syscall distinguished by
`send_to_pid` in `signals.rs`. -/
inductive KillErrno
  | eperm
  | esrch
  | other (msg : String)
deriving Repr, DecidableEq

/-- The environment of the signal engine: the provider snapshot (the
`ProcessManager` refresh throttle keeps it stable within one operation),
the engine's own pid (`std::process::id()`), the caller uid and resolved
user name, and oracles for the platform signal-support check (`to_nix`)
and the raw `kill` syscall. -/
structure SignalCtx where
  procs : List PInfo
  selfPid : Nat
  uid : Nat
  currentUser : Option String
  nixOk : Signal → Bool
  rawKill : Nat → Signal → Option KillErrno

/-- `lookup` from `signals.rs` (the underlying `find`). -/
def lookupProc (ctx : SignalCtx) (pid : Nat) : Option PInfo :=
  ctx.procs.find? (fun p => p.pid == pid)

/-- `lookup` from `signals.rs`: missing pid becomes "process not found". -/
def lookupE (ctx : SignalCtx) (pid : Nat) : Except String PInfo :=
  match lookupProc ctx pid with
  | some info => .ok info
  | none => .error "process not found"

/-- `validate_target` from `signals.rs`. -/
def validateTarget (ctx : SignalCtx) (info : PInfo) : Except String Unit :=
  if info.pid == 1 then .error "refusing to signal pid 1"
  else if info.pid == ctx.selfPid then .error "refusing to signal pkillr"
  else .ok ()

/-- `ensure_permissions` from `signals.rs`. -/
def ensurePermissions (ctx : SignalCtx) (info : PInfo) : Except String Unit :=
  if ctx.uid == 0 then .ok ()
  else
    match ctx.currentUser with
    | none => .error "cannot determine current user"
    | some current =>
      if info.user == "unknown" then .error "permission denied (needs sudo)"
      else if info.user != current then .error "permission denied (needs sudo)"
      else .ok ()

/-- `send_to_pid` from `signals.rs`: platform-support check, then the raw
syscall with its errno translation. -/
def sendToPid (ctx : SignalCtx) (pid : Nat) (sig : Signal) : Except String Unit :=
  if ctx.nixOk sig then
    match ctx.rawKill pid sig with
    | none => .ok ()
    | some .eperm => .error "permission denied (needs sudo)"
    | some .esrch => .error "process not found"
    | some (.other msg) => .error ("failed to send " ++ sig.name ++ ": " ++ msg)
  else .error ("signal " ++ sig.name ++ " not available on this platform")

/-- `send_signal_with_manager` from `signals.rs`: lookup, protected-target
check, permission check, raw send — in that order. -/
def sendSignalWithManager (ctx : SignalCtx) (pid : Nat) (sig : Signal) :
    Except String PInfo :=
  match lookupE ctx pid with
  | .error e => .error e
  | .ok info =>
    match validateTarget ctx info with
    | .error e => .error e
    | .ok _ =>
      match ensurePermissions ctx info with
      | .error e => .error e
      | .ok _ =>
        match sendToPid ctx pid sig with
        | .error e => .error e
        | .ok _ => .ok info

/-- The per-target pipeline of the tree-kill loop in
`kill_process_tree_with_manager`: `validate_target` then
`ensure_permissions` then `send_to_pid`. -/
def targetResult (ctx : SignalCtx) (sig : Signal) (pid : Nat) (info : PInfo) :
    Except String Unit :=
  match validateTarget ctx info with
  | .error e => .error e
  | .ok _ =>
    match ensurePermissions ctx info with
    | .error e => .error e
    | .ok _ => sendToPid ctx pid sig

/-- The child map of `collect_tree` from `signals.rs`: every process whose
declared parent is `parent` (no presence filter here, unlike the tree
view). -/
def sigChildren (procs : List PInfo) (parent : Nat) : List Nat :=
  (procs.filter (fun p => p.ppid == some parent)).map (fun p => p.pid)

/-- The child loop of `post_order`, threading the visited set and the
output order through the recursive calls. -/
def postKidsFold (step : Nat → List Nat → List Nat → Option (List Nat × List Nat)) :
    List Nat → List Nat → List Nat → Option (List Nat × List Nat)
  | [], visited, order => some (visited, order)
  | k :: rest, visited, order =>
    match step k visited order with
    | none => none
    | some out => postKidsFold step rest out.1 out.2

/-- `post_order` from `signals.rs`: depth-first walk guarded by a visited
set (`HashSet::insert` modelled as a contains-check plus cons), emitting
each fresh pid after its children.  The Rust recursion terminates because
the visited set grows on every fresh call; the fuel parameter makes the
embedding structural (any fuel larger than the number of reachable pids
gives `some`). -/
def postOrder : Nat → (Nat → List Nat) → Nat → List Nat → List Nat →
    Option (List Nat × List Nat)
  | 0, _, _, _, _ => none
  | fuel + 1, children, pid, visited, order =>
    if visited.contains pid then some (visited, order)
    else
      match postKidsFold (fun k v o => postOrder fuel children k v o)
          (children pid) (pid :: visited) order with
      | none => none
      | some out => some (out.1, out.2 ++ [pid])

/-- `collect_tree` from `signals.rs`. -/
def collectTree (fuel : Nat) (procs : List PInfo) (root : Nat) : Option (List Nat) :=
  (postOrder fuel (sigChildren procs) root [] []).map (fun out => out.2)

/-- Rust `Debug` formatting of a `Vec<u32>`, as used by the
`failed after killing {:?}` error message. -/
def fmtPidList (pids : List Nat) : String :=
  "[" ++ String.intercalate ", " (pids.map toString) ++ "]"

/-- The tree-kill error message
`format!("failed after killing {:?}: {}", killed, err)`. -/
def formatFailedAfter (killed : List Nat) (err : String) : String :=
  "failed after killing " ++ fmtPidList killed ++ ": " ++ err

/-- The traversal loop of `kill_process_tree_with_manager` from
`signals.rs`: per target, look the pid up (recording an "unknown" event
and aborting on failure), run the pipeline, record one event, extend the
killed list on success and abort with the formatted error on failure. -/
def treeKillLoop (ctx : SignalCtx) (sig : Signal) :
    List Nat → List Nat → List SignalEvent →
    List SignalEvent × Except String (List Nat)
  | [], killed, events => (events, .ok killed)
  | pid :: rest, killed, events =>
    match lookupProc ctx pid with
    | none =>
      (events ++ [⟨pid, "unknown", sig, .error "process not found"⟩],
       .error (formatFailedAfter killed "process not found"))
    | some info =>
      match targetResult ctx sig pid info with
      | .ok _ =>
        treeKillLoop ctx sig rest (killed ++ [pid])
          (events ++ [⟨pid, info.name, sig, .ok ()⟩])
      | .error err =>
        (events ++ [⟨pid, info.name, sig, .error err⟩],
         .error (formatFailedAfter killed err))

/-- `kill_process_tree_with_manager` from `signals.rs`: protected-root
checks first, then the post-order traversal, then the fail-fast loop.
Returns the recorded events together with the outcome. -/
def killProcessTreeWithManager (fuel : Nat) (ctx : SignalCtx) (root : Nat) (sig : Signal) :
    Option (List SignalEvent × Except String (List Nat)) :=
  if root == 1 then some ([], .error "refusing to signal pid 1")
  else if root == ctx.selfPid then some ([], .error "refusing to signal pkillr")
  else
    match collectTree fuel ctx.procs root with
    | none => none
    | some tree => some (treeKillLoop ctx sig tree [] [])

/-- `SignalSender` from `signals.rs`: the bounded history ring
(`VecDeque`, front = oldest). -/
structure SenderState where
  history : List SignalEvent
deriving Repr, DecidableEq

/-- `SignalSender::push_event`: drop the front at capacity 10, append at
the back. -/
def pushEvent (h : List SignalEvent) (e : SignalEvent) : List SignalEvent :=
  (if h.length == 10 then h.drop 1 else h) ++ [e]

/-- `SignalSender::history()`: iteration newest-first (`iter().rev()`). -/
def historyIter (s : SenderState) : List SignalEvent :=
  s.history.reverse

/-- `SignalSender::send_signal` from `signals.rs`: one event is recorded
for the attempt whether it succeeds or fails; on failure the name is
re-resolved from the snapshot or "unknown". -/
def sendSignalS (ctx : SignalCtx) (s : SenderState) (pid : Nat) (sig : Signal) :
    SenderState × Except String Unit :=
  match sendSignalWithManager ctx pid sig with
  | .ok info => (⟨pushEvent s.history ⟨pid, info.name, sig, .ok ()⟩⟩, .ok ())
  | .error err =>
    let name :=
      match lookupProc ctx pid with
      | some p => p.name
      | none => "unknown"
    (⟨pushEvent s.history ⟨pid, name, sig, .error err⟩⟩, .error err)

/-- `SignalSender::kill_process_tree` from `signals.rs`: run the tree
kill, then push every recorded event into the ring. -/
def killProcessTreeS (fuel : Nat) (ctx : SignalCtx) (s : SenderState) (root : Nat)
    (sig : Signal) : Option (SenderState × Except String (List Nat)) :=
  match killProcessTreeWithManager fuel ctx root sig with
  | none => none
  | some out => some (⟨out.1.foldl pushEvent s.history⟩, out.2)

/-- The invariant of the `post_order` child loop: the order only grows at
the back, the visited set grows by exactly the emitted pids, and every
listed child ends up visited. -/
theorem postKidsFold_inv
    (step : Nat → List Nat → List Nat → Option (List Nat × List Nat))
    (hstep : ∀ k v o out, step k v o = some out →
      ∃ new, out.2 = o ++ new ∧ (∀ x, x ∈ out.1 ↔ x ∈ v ∨ x ∈ new) ∧ k ∈ out.1) :
    ∀ (kids v o : List Nat) out,
      postKidsFold step kids v o = some out →
      ∃ new, out.2 = o ++ new ∧ (∀ x, x ∈ out.1 ↔ x ∈ v ∨ x ∈ new) ∧
        ∀ k ∈ kids, k ∈ out.1 := by
  intro kids
  induction kids with
  | nil =>
    intro v o out h
    simp only [postKidsFold, Option.some.injEq] at h
    subst h
    exact ⟨[], by simp, fun x => by simp, by simp⟩
  | cons k rest ih =>
    intro v o out h
    simp only [postKidsFold] at h
    cases hk : step k v o with
    | none => rw [hk] at h; exact absurd h (by simp)
    | some out1 =>
      rw [hk] at h
      obtain ⟨new1, ho1, hv1, hk1⟩ := hstep k v o out1 hk
      obtain ⟨new2, ho2, hv2, hall⟩ := ih out1.1 out1.2 out h
      refine ⟨new1 ++ new2, ?_, ?_, ?_⟩
      · rw [ho2, ho1, List.append_assoc]
      · intro x
        rw [hv2 x, hv1 x, List.mem_append]
        tauto
      · intro k' hk'
        rcases List.mem_cons.mp hk' with rfl | hmem
        · exact (hv2 k').mpr (Or.inl hk1)
        · exact hall k' hmem

/-- The invariant of one `post_order` call: the order grows only at the
back, the visited set grows by exactly the emitted pids, the walked pid
ends up visited, and a fresh pid is emitted last — after every fresh
child. -/
theorem postOrder_inv :
    ∀ (fuel : Nat) (ch : Nat → List Nat) (pid : Nat) (v o : List Nat) out,
      postOrder fuel ch pid v o = some out →
      ∃ new, out.2 = o ++ new ∧ (∀ x, x ∈ out.1 ↔ x ∈ v ∨ x ∈ new) ∧ pid ∈ out.1 ∧
        (pid ∉ v → ∃ mid, new = mid ++ [pid] ∧
          ∀ c ∈ ch pid, c ∉ v → c ≠ pid → c ∈ mid) := by
  intro fuel
  induction fuel with
  | zero => intro _ _ _ _ _ h; exact absurd h (by simp [postOrder])
  | succ fuel ih =>
    intro ch pid v o out h
    simp only [postOrder] at h
    cases hvc : v.contains pid with
    | true =>
      rw [hvc] at h
      simp only [if_true, Option.some.injEq] at h
      subst h
      have hpv : pid ∈ v := by simpa using hvc
      exact ⟨[], by simp, fun x => by simp, hpv, fun hnv => absurd hpv hnv⟩
    | false =>
      rw [hvc] at h
      simp only [Bool.false_eq_true, if_false] at h
      cases hf : postKidsFold (fun k v o => postOrder fuel ch k v o)
          (ch pid) (pid :: v) o with
      | none => rw [hf] at h; exact absurd h (by simp)
      | some fout =>
        rw [hf] at h
        simp only [Option.some.injEq] at h
        subst h
        obtain ⟨newF, hoF, hvF, hallF⟩ :=
          postKidsFold_inv _
            (fun k v' o' out' he =>
              (ih ch k v' o' out' he).imp
                (fun new hn => ⟨hn.1, hn.2.1, hn.2.2.1⟩))
            (ch pid) (pid :: v) o fout hf
        refine ⟨newF ++ [pid], by rw [hoF, List.append_assoc], ?_, ?_, ?_⟩
        · intro x
          rw [hvF x]
          simp only [List.mem_cons, List.mem_append, List.mem_singleton]
          tauto
        · exact (hvF pid).mpr (Or.inl (List.mem_cons_self pid v))
        · intro _
          refine ⟨newF, rfl, ?_⟩
          intro c hc hcv hcp
          have := hallF c hc
          rcases (hvF c).mp this with hcv' | hcnew
          · rcases List.mem_cons.mp hcv' with rfl | hmem
            · exact absurd rfl hcp
            · exact absurd hmem hcv
          · exact hcnew

/-- The pid-10 → pid-11 → pid-12 chain snapshot of the spec's testable
property. -/
def chainP10 : PInfo :=
  { pid := 10, name := "chain-root", cpu := 0, mem := 0, user := "u", runtime := 0,
    cmdline := [], cwd := none, environment := [], ppid := none }

/-- Middle process of the chain snapshot. -/
def chainP11 : PInfo :=
  { pid := 11, name := "chain-mid", cpu := 0, mem := 0, user := "u", runtime := 0,
    cmdline := [], cwd := none, environment := [], ppid := some 10 }

/-- Leaf process of the chain snapshot. -/
def chainP12 : PInfo :=
  { pid := 12, name := "chain-leaf", cpu := 0, mem := 0, user := "u", runtime := 0,
    cmdline := [], cwd := none, environment := [], ppid := some 11 }

/-- The chain snapshot. -/
def chainProcs : List PInfo := [chainP10, chainP11, chainP12]

/-- A signal-engine environment over the chain snapshot in which every
raw send succeeds. -/
def chainCtx : SignalCtx :=
  { procs := chainProcs, selfPid := 999, uid := 0, currentUser := some "u",
    nixOk := fun _ => true, rawKill := fun _ _ => none }

/-- C3: the tree-kill traversal is post-order.  First conjunct: whenever
`post_order` returns on a fresh pid, that pid is emitted last in its
segment and every fresh child of it is emitted strictly before it — every
descendant is signaled before its ancestor.  Second conjunct: on the
chain root(10)→child(11)→grandchild(12) with all sends succeeding, the
safety pipeline and signal are applied in exactly the order
[12, 11, 10], each attempt succeeds, and the killed list is [12, 11, 10]. -/
theorem c3_tree_kill_post_order :
    (∀ (fuel : Nat) (ch : Nat → List Nat) (pid : Nat) (v o : List Nat) out,
      postOrder fuel ch pid v o = some out → pid ∉ v →
      ∃ mid, out.2 = o ++ mid ++ [pid] ∧
        ∀ c ∈ ch pid, c ∉ v → c ≠ pid → c ∈ mid) ∧
    (killProcessTreeWithManager 4 chainCtx 10 .Sigterm).map
        (fun out => (out.1.map (fun e => (e.pid, e.result)), out.2)) =
      some ([(12, .ok ()), (11, .ok ()), (10, .ok ())], .ok [12, 11, 10]) := by
  constructor
  · intro fuel ch pid v o out h hfresh
    obtain ⟨new, ho, _, _, hlast⟩ := postOrder_inv fuel ch pid v o out h
    obtain ⟨mid, hmid, hkids⟩ := hlast hfresh
    exact ⟨mid, by rw [ho, hmid, List.append_assoc], hkids⟩
  · rfl

/-- Witness for C3's post-order conjunct at the chain snapshot: the walk
from root 10 emits [12, 11, 10], the root last, with its fresh child 11
emitted before it. -/
theorem c3_witness :
    ∃ mid, ([12, 11, 10] : List Nat) = [] ++ mid ++ [10] ∧
      ∀ c ∈ sigChildren chainProcs 10, c ∉ ([] : List Nat) → c ≠ 10 → c ∈ mid :=
  c3_tree_kill_post_order.1 4 (sigChildren chainProcs) 10 [] []
    ([12, 11, 10], [12, 11, 10]) rfl (by simp)

/-- The process name the tree-kill loop records for a pid. -/
def nameOf (ctx : SignalCtx) (p : Nat) : String :=
  match lookupProc ctx p with
  | some i => i.name
  | none => "unknown"

/-- A snapshot on which a tree kill partially succeeds: root 10 is owned
by another user, its child 11 by the caller. -/
def mixed10 : PInfo :=
  { pid := 10, name := "bash", cpu := 0, mem := 0, user := "w", runtime := 0,
    cmdline := [], cwd := none, environment := [], ppid := none }

/-- The caller-owned child of the mixed-ownership snapshot. -/
def mixed11 : PInfo :=
  { pid := 11, name := "sleep", cpu := 0, mem := 0, user := "u", runtime := 0,
    cmdline := [], cwd := none, environment := [], ppid := some 10 }

/-- A non-root signal-engine environment over the mixed-ownership
snapshot in which every raw send succeeds. -/
def mixedCtx : SignalCtx :=
  { procs := [mixed10, mixed11], selfPid := 999, uid := 1000, currentUser := some "u",
    nixOk := fun _ => true, rawKill := fun _ _ => none }

/-- C4 as stated, refuted at a concrete input: a tree kill of root 10
signals child 11 successfully and then fails on 10 with a permission
error.  The result embeds the list of killed pids in the error string
("failed after killing [11]: …"); no "N processes terminated" count is
reported alongside the error — that phrase appears only in the
success-path status. -/
theorem c4_counterexample :
    (killProcessTreeWithManager 4 mixedCtx 10 .Sigterm).map
        (fun out => (out.1.map (fun e => (e.pid, e.result)), out.2)) =
      some ([(11, .ok ()), (10, .error "permission denied (needs sudo)")],
        .error "failed after killing [11]: permission denied (needs sudo)") ∧
    strContains "failed after killing [11]: permission denied (needs sudo)"
        "processes terminated" = false := by
  exact ⟨rfl, rfl⟩

/-- C4 (amended): tree kill is fail-fast without rollback — the first
per-target error stops the remaining traversal (no event for any later
target), the result embeds the list of pids successfully signaled before
the error in the error string together with that error, and the events of
already-signaled pids keep their success outcome (nothing is retracted).
The "N processes terminated" count appears only in the success-path
status message. -/
theorem c4_tree_kill_fail_fast :
    ∀ (ctx : SignalCtx) (sig : Signal) (pre : List Nat) (bad : Nat)
      (post killed0 : List Nat) (events0 : List SignalEvent) (infoBad : PInfo)
      (err : String),
      (∀ p ∈ pre, ∃ info, lookupProc ctx p = some info ∧
        targetResult ctx sig p info = .ok ()) →
      lookupProc ctx bad = some infoBad →
      targetResult ctx sig bad infoBad = .error err →
      treeKillLoop ctx sig (pre ++ bad :: post) killed0 events0 =
        (events0 ++ pre.map (fun p => ⟨p, nameOf ctx p, sig, .ok ()⟩) ++
          [⟨bad, infoBad.name, sig, .error err⟩],
         .error (formatFailedAfter (killed0 ++ pre) err)) := by
  intro ctx sig pre
  induction pre with
  | nil =>
    intro bad post killed0 events0 infoBad err _ hbad herr
    simp only [List.nil_append, treeKillLoop, hbad, herr, List.map_nil,
      List.append_nil]
  | cons p rest ih =>
    intro bad post killed0 events0 infoBad err hpre hbad herr
    obtain ⟨info, hlk, hok⟩ := hpre p (List.mem_cons_self p rest)
    have hrest : ∀ q ∈ rest, ∃ info, lookupProc ctx q = some info ∧
        targetResult ctx sig q info = .ok () :=
      fun q hq => hpre q (List.mem_cons_of_mem p hq)
    have hname : nameOf ctx p = info.name := by simp [nameOf, hlk]
    simp only [List.cons_append, treeKillLoop, hlk, hok, List.append_eq]
    have h1 := ih bad post (killed0 ++ [p])
      (events0 ++ [⟨p, info.name, sig, Except.ok ()⟩]) infoBad err hrest hbad herr
    rw [h1]
    simp [hname, List.append_assoc]

/-- Witness for C4's amended fail-fast theorem at the mixed-ownership
snapshot: child 11 succeeds, root 10 fails, traversal stops, and the
error string embeds the killed list. -/
theorem c4_witness :
    treeKillLoop mixedCtx .Sigterm [11, 10] [] [] =
      ([⟨11, "sleep", .Sigterm, .ok ()⟩,
        ⟨10, "bash", .Sigterm, .error "permission denied (needs sudo)"⟩],
       .error "failed after killing [11]: permission denied (needs sudo)") := by
  have h := c4_tree_kill_fail_fast mixedCtx .Sigterm [11] 10 [] [] [] mixed10
    "permission denied (needs sudo)"
    (by intro p hp
        simp only [List.mem_singleton] at hp
        subst hp
        exact ⟨mixed11, rfl, rfl⟩)
    rfl rfl
  simpa using h

/-- C5: signaling pid 1 or the engine's own pid is rejected with the
protected-target error regardless of caller privilege.  The direct path
(given the target is present in the snapshot, as pid 1 always is) and the
tree-kill root path (unconditionally, before the traversal) both return
the protected-target error for *every* environment — in particular for
every uid (root included) and every behaviour of the permission data and
of the raw-kill oracle, so no permission check or signal syscall can have
influenced the outcome, and no event is recorded for the tree case. -/
theorem c5_protected_targets :
    (∀ (ctx : SignalCtx) (pid : Nat) (sig : Signal) (info : PInfo),
      lookupProc ctx pid = some info → pid = 1 ∨ pid = ctx.selfPid →
      sendSignalWithManager ctx pid sig =
        .error (if pid == 1 then "refusing to signal pid 1"
                else "refusing to signal pkillr")) ∧
    (∀ (fuel : Nat) (ctx : SignalCtx) (root : Nat) (sig : Signal),
      root = 1 ∨ root = ctx.selfPid →
      killProcessTreeWithManager fuel ctx root sig =
        some ([], .error (if root == 1 then "refusing to signal pid 1"
                          else "refusing to signal pkillr"))) := by
  constructor
  · intro ctx pid sig info hlk hprot
    have hpid : info.pid = pid := by
      have := List.find?_some hlk
      simpa using this
    simp only [sendSignalWithManager, lookupE, hlk, validateTarget, hpid]
    rcases hprot with rfl | rfl
    · simp
    · by_cases h1 : ctx.selfPid = 1
      · simp [h1]
      · simp [h1, beq_iff_eq]
  · intro fuel ctx root sig hprot
    rcases hprot with rfl | rfl
    · simp [killProcessTreeWithManager]
    · by_cases h1 : ctx.selfPid = 1
      · simp [killProcessTreeWithManager, h1]
      · simp [killProcessTreeWithManager, h1, beq_iff_eq]

/-- A root-privileged environment containing pid 1 and the engine's own
pid (77). -/
def protProcs : List PInfo :=
  [{ pid := 1, name := "init", cpu := 0, mem := 0, user := "root", runtime := 0,
     cmdline := [], cwd := none, environment := [], ppid := none },
   { pid := 77, name := "pkillr", cpu := 0, mem := 0, user := "root", runtime := 0,
     cmdline := [], cwd := none, environment := [], ppid := some 1 }]

/-- Root-caller environment for the protected-target witness. -/
def protCtx : SignalCtx :=
  { procs := protProcs, selfPid := 77, uid := 0, currentUser := some "root",
    nixOk := fun _ => true, rawKill := fun _ _ => none }

/-- Witness for C5 with a root caller: both the direct send to pid 1 and
the tree kill rooted at the engine's own pid 77 are rejected with the
protected-target errors. -/
theorem c5_witness :
    sendSignalWithManager protCtx 1 .Sigkill = .error "refusing to signal pid 1" ∧
    killProcessTreeWithManager 5 protCtx 77 .Sigkill =
      some ([], .error "refusing to signal pkillr") := by
  constructor
  · have h := c5_protected_targets.1 protCtx 1 .Sigkill
      { pid := 1, name := "init", cpu := 0, mem := 0, user := "root", runtime := 0,
        cmdline := [], cwd := none, environment := [], ppid := none }
      rfl (Or.inl rfl)
    simpa using h
  · have h := c5_protected_targets.2 5 protCtx 77 .Sigkill (Or.inr rfl)
    simpa using h

/-- `push_event` keeps the ring at or below its capacity of 10. -/
theorem pushEvent_length_le (h : List SignalEvent) (e : SignalEvent)
    (hh : h.length ≤ 10) : (pushEvent h e).length ≤ 10 := by
  by_cases h10 : h.length = 10
  · simp [pushEvent, h10]
  · have : (h.length == 10) = false := by simpa using h10
    simp only [pushEvent, this, Bool.false_eq_true, if_false, List.length_append,
      List.length_singleton]
    omega

/-- Folding `push_event` over a stream of events from a ring within
capacity keeps exactly the last 10 elements of ring-plus-stream. -/
theorem foldl_pushEvent_drop (es : List SignalEvent) :
    ∀ (h : List SignalEvent), h.length ≤ 10 →
      es.foldl pushEvent h = (h ++ es).drop ((h ++ es).length - 10) := by
  induction es with
  | nil =>
    intro h hh
    simp only [List.foldl_nil, List.append_nil]
    have hz : h.length - 10 = 0 := by omega
    rw [hz, List.drop_zero]
  | cons e rest ih =>
    intro h hh
    have hlen := pushEvent_length_le h e hh
    rw [List.foldl_cons, ih (pushEvent h e) hlen]
    by_cases h10 : h.length = 10
    · have hbe : (h.length == 10) = true := by simpa using h10
      simp only [pushEvent, hbe, if_true]
      have e1 : h.drop 1 ++ [e] ++ rest = (h ++ e :: rest).drop 1 := by
        rw [List.drop_append_of_le_length (by omega)]
        simp
      rw [e1, List.drop_drop]
      congr 1
      simp only [List.length_drop, List.length_append, List.length_cons, h10]
      omega
    · have hbe : (h.length == 10) = false := by simpa using h10
      simp only [pushEvent, hbe, Bool.false_eq_true, if_false]
      rw [List.append_assoc]
      rfl

/-- C6: the signal history is a bounded ring iterated newest-first.
Conjuncts: (1) every `send_signal` dispatch attempt — success or failure —
appends exactly one event, carrying the attempted pid, the signal and the
outcome; (2) `push_event` never grows the ring beyond 10; (3) at capacity
10 the oldest (front) entry is evicted; (4) pushing any event stream into
an empty ring keeps exactly the last 10 events; (5) iteration
(`history()`, modelled by `historyIter`) yields the newest entry first. -/
theorem c6_history_ring_bounded_newest_first :
    (∀ (ctx : SignalCtx) (s : SenderState) (pid : Nat) (sig : Signal),
      ∃ e, (sendSignalS ctx s pid sig).1.history = pushEvent s.history e ∧
        e.pid = pid ∧ e.signal = sig ∧
        e.result = (sendSignalS ctx s pid sig).2) ∧
    (∀ (h : List SignalEvent) (e : SignalEvent), h.length ≤ 10 →
      (pushEvent h e).length ≤ 10) ∧
    (∀ (h : List SignalEvent) (e : SignalEvent), h.length = 10 →
      pushEvent h e = h.drop 1 ++ [e]) ∧
    (∀ es : List SignalEvent, es.foldl pushEvent [] = es.drop (es.length - 10)) ∧
    (∀ (h : List SignalEvent) (e : SignalEvent),
      (historyIter ⟨pushEvent h e⟩).head? = some e) := by
  refine ⟨?_, pushEvent_length_le, ?_, ?_, ?_⟩
  · intro ctx s pid sig
    cases hs : sendSignalWithManager ctx pid sig with
    | ok info =>
      exact ⟨⟨pid, info.name, sig, .ok ()⟩, by simp [sendSignalS, hs], rfl, rfl,
        by simp [sendSignalS, hs]⟩
    | error err =>
      refine ⟨⟨pid,
        match lookupProc ctx pid with
        | some p => p.name
        | none => "unknown", sig, .error err⟩, ?_, rfl, rfl, ?_⟩
      · simp [sendSignalS, hs]
      · simp [sendSignalS, hs]
  · intro h e h10
    have hbe : (h.length == 10) = true := by simpa using h10
    simp [pushEvent, hbe]
  · intro es
    have h := foldl_pushEvent_drop es [] (by simp)
    simpa using h
  · intro h e
    simp [historyIter, pushEvent]

/-- A placeholder event stream element for the ring witness. -/
def dummyEv (n : Nat) : SignalEvent := ⟨n, "p", .Sigterm, .ok ()⟩

/-- A full ring of 10 events. -/
def ring10 : List SignalEvent := (List.range 10).map dummyEv

/-- Witness for C6 at a full concrete ring: pushing an eleventh event
keeps the ring at 10 and evicts the oldest entry. -/
theorem c6_witness :
    (pushEvent ring10 (dummyEv 10)).length ≤ 10 ∧
    pushEvent ring10 (dummyEv 10) = ring10.drop 1 ++ [dummyEv 10] :=
  ⟨c6_history_ring_bounded_newest_first.2.1 ring10 (dummyEv 10) (by decide),
   c6_history_ring_bounded_newest_first.2.2.1 ring10 (dummyEv 10) (by decide)⟩

/-- `AppMode` from `app.rs`. -/
inductive AppMode
  | normal | search | signalMenu | infoPane | treeView | historyView
deriving Repr, DecidableEq

/-- `SortColumn` from `app.rs`. -/
inductive SortColumn
  | cpu | memory | pid | name | user | runtime
deriving Repr, DecidableEq

/-- `StatusLevel` from `app.rs`. -/
inductive StatusLevel
  | info | warning | error
deriving Repr, DecidableEq

/-- `PendingKill` from `app.rs`: the deferred operation held by the
shell-kill confirmation gate. -/
inductive PendingKill
  | direct (targets : List Nat) (signal : Signal)
  | tree (targets : List Nat) (signal : Signal)
deriving Repr, DecidableEq

/-- `KillMode` from `app.rs`. -/
inductive KillMode
  | direct | tree
deriving Repr, DecidableEq

/-- The key codes the verified handlers distinguish (crossterm
`KeyCode`). -/
inductive KeyCode
  | char (c : Char) | esc | enter | backspace | other
deriving Repr, DecidableEq

/-- A key event: code plus the CONTROL/ALT modifier flags consulted by
`handle_search_input`. -/
structure KeyEvent where
  code : KeyCode
  ctrl : Bool
  alt : Bool
deriving Repr, DecidableEq

/-- Oracles for the two external crates the search engine drives: the
`regex` builder/matcher (over an abstract compiled-regex type `ρ`) and the
`fuzzy_matcher` scorer.  `build` receives the pattern and the `i`/`m`/`s`
flag booleans; `findSpans` models `find_iter` (start, end) spans;
`fuzzyIndices` models `fuzzy_indices` and `fuzzyScore` models
`fuzzy_match`. -/
structure SearchOracle (ρ : Type) where
  build : String → Bool → Bool → Bool → Except String ρ
  isMatch : ρ → String → Bool
  findSpans : ρ → String → List (Nat × Nat)
  fuzzyIndices : String → String → Option (Int × List Nat)
  fuzzyScore : String → String → Option Int

/-- `SearchMode` from `app.rs`. -/
inductive SearchModeM (ρ : Type)
  | fuzzy (text : String)
  | regex (pattern flags : String) (matcher : ρ)
  | history (sub : String)

/-- Index of the last `'/'` in a character list (`str::rfind('/')`;
character positions coincide with byte positions at `'/'` boundaries). -/
def rfindSlashIdx (cs : List Char) : Option Nat :=
  match cs.reverse.findIdx? (fun c => c == '/') with
  | some j => some (cs.length - 1 - j)
  | none => none

/-- `App::parse_search_mode` from `app.rs` (first match wins): `/killed`
(case-insensitive) with an optional `:`/space separated sub-filter,
`/pattern/flags` regex, anything else fuzzy. -/
def parseSearchModeM {ρ : Type} (o : SearchOracle ρ) (query : String) :
    Except String (SearchModeM ρ) :=
  let trimmed := strTrim query
  if strIsEmpty trimmed then .ok (.fuzzy "")
  else
    let lowered := asciiLower trimmed
    if strStarts lowered "/killed" then
      let remainder := if lowered.length ≥ 7 then String.mk (trimmed.toList.drop 7) else ""
      let sub := String.mk (remainder.toList.dropWhile (fun c => c == ' ' || c == ':'))
      .ok (.history sub)
    else if strStarts trimmed "/" then
      match rfindSlashIdx trimmed.toList with
      | some endi =>
        if endi > 0 then
          let pattern := String.mk ((trimmed.toList.drop 1).take (endi - 1))
          let flags := String.mk (trimmed.toList.drop (endi + 1))
          match o.build pattern (flags.toList.contains 'i') (flags.toList.contains 'm')
              (flags.toList.contains 's') with
          | .error err => .error ("invalid regex: " ++ err)
          | .ok matcher => .ok (.regex pattern flags matcher)
        else .ok (.fuzzy trimmed)
      | none => .ok (.fuzzy trimmed)
    else .ok (.fuzzy trimmed)

/-- The field base weights of the search scorer (`SCORE_*` in `app.rs`). -/
def scoreName : Int := 900000

/-- `SCORE_CAMEL`. -/
def scoreCamel : Int := 880000

/-- `SCORE_CMDLINE`. -/
def scoreCmdline : Int := 700000

/-- `SCORE_CWD`. -/
def scoreCwd : Int := 660000

/-- `SCORE_ENV`. -/
def scoreEnv : Int := 640000

/-- `MAX_ENV_MATCHES`. -/
def maxEnvMatches : Nat := 16

/-- `SearchHit` from `app.rs`. -/
structure SearchHit where
  score : Int
  nameIndices : List Nat
deriving Repr, DecidableEq

/-- The character loop of `split_camel_case`, carrying the
`prev_lower_or_digit` flag.  The source's Unicode
`is_uppercase`/`is_lowercase` are modelled by the ASCII classifiers
(process names are ASCII). -/
def splitCamelChars : List Char → Bool → List Char
  | [], _ => []
  | ch :: rest, prevLowerOrDigit =>
    if ch == '_' || ch == '-' then ' ' :: splitCamelChars rest false
    else
      (if ch.isUpper && prevLowerOrDigit then [' '] else []) ++
        ch :: splitCamelChars rest (ch.isLower || ch.isDigit)

/-- `split_camel_case` from `app.rs`. -/
def splitCamelCase (value : String) : String :=
  if strIsEmpty value then "" else String.mk (splitCamelChars value.toList false)

/-- The repeated `best_score.map_or(true, |current| weighted > current)`
update of the scorers: keep the larger score. -/
def betterOpt (best : Option Int) (candidate : Int) : Option Int :=
  match best with
  | none => some candidate
  | some cur => if candidate > cur then some candidate else some cur

/-- `fuzzy_match_process` from `app.rs`: score the query against the
name, the de-camel-cased name, the joined command line, the working
directory and up to 16 environment entries, each with its fixed base
weight; only a name match records highlight indices. -/
def fuzzyMatchProcess {ρ : Type} (o : SearchOracle ρ) (proc : PInfo) (query : String) :
    Option SearchHit :=
  let base :=
    match o.fuzzyIndices proc.name query with
    | some si => (some (scoreName + si.1), si.2)
    | none => ((none : Option Int), ([] : List Nat))
  let best0 := base.1
  let nameIndices := base.2
  let camel := splitCamelCase proc.name
  let best1 :=
    if !strIsEmpty camel then
      match o.fuzzyScore camel query with
      | some score => betterOpt best0 (scoreCamel + score)
      | none => best0
    else best0
  let best2 :=
    if !proc.cmdline.isEmpty then
      match o.fuzzyScore (String.intercalate " " proc.cmdline) query with
      | some score => betterOpt best1 (scoreCmdline + score)
      | none => best1
    else best1
  let best3 :=
    match proc.cwd with
    | some cwd =>
      match o.fuzzyScore cwd query with
      | some score => betterOpt best2 (scoreCwd + score)
      | none => best2
    | none => best2
  let best4 := (proc.environment.take maxEnvMatches).foldl
    (fun best entry =>
      match o.fuzzyScore entry query with
      | some score => betterOpt best (scoreEnv + score)
      | none => best)
    best3
  best4.map (fun s => ⟨s, nameIndices⟩)

/-- `regex_indices` from `app.rs`: all character offsets covered by the
non-overlapping match spans, sorted and deduplicated. -/
def regexIndicesM (spans : List (Nat × Nat)) : List Nat :=
  dedupAdj (sortOrd compare
    (spans.foldl
      (fun acc se => acc ++ (List.range (se.2 - se.1)).map (fun k => se.1 + k))
      []))

/-- `regex_match_process` from `app.rs`: same field priority as the fuzzy
scorer, match strength derived from the match span / field length. -/
def regexMatchProcess {ρ : Type} (o : SearchOracle ρ) (rx : ρ) (proc : PInfo) :
    Option SearchHit :=
  let base :=
    if o.isMatch rx proc.name then
      let ni := regexIndicesM (o.findSpans rx proc.name)
      (some (scoreName + (ni.length : Int)), ni)
    else ((none : Option Int), ([] : List Nat))
  let best0 := base.1
  let nameIndices := base.2
  let best1 :=
    if !proc.cmdline.isEmpty then
      let cmdline := String.intercalate " " proc.cmdline
      if o.isMatch rx cmdline then betterOpt best0 (scoreCmdline + (cmdline.length : Int))
      else best0
    else best0
  let best2 :=
    match proc.cwd with
    | some cwd =>
      if o.isMatch rx cwd then betterOpt best1 (scoreCwd + (cwd.length : Int)) else best1
    | none => best1
  let best3 := (proc.environment.take maxEnvMatches).foldl
    (fun best entry =>
      if o.isMatch rx entry then betterOpt best (scoreEnv + (entry.length : Int)) else best)
    best2
  best3.map (fun s => ⟨s, nameIndices⟩)

/-- `full_match_indices` from `app.rs`. -/
def fullMatchIndices (text : String) : List Nat :=
  List.range text.length

/-- `HISTORY_WEIGHT` from `filter_by_history`. -/
def historyWeight : Int := 1000000000

/-- The `App` state from `app.rs` (fields of the four core components;
renderer-only caches such as signal-menu scroll state are omitted, the
info-details cache is tracked by cached pid).  `filterPasses` is ghost
instrumentation: it counts executions of `apply_filters` and is read by
no definition, only by temporal theorems. -/
structure AppState where
  processes : List PInfo
  filtered : List PInfo
  selectedIndex : Nat
  selectedPids : List Nat
  mode : AppMode
  searchQuery : String
  sortColumn : SortColumn
  sortDescending : Bool
  showAllProcesses : Bool
  infoPaneOpen : Bool
  infoFocus : Bool
  treeViewOpen : Bool
  signalMenuOpen : Bool
  shellConfirm : Option PendingKill
  historyPopupOpen : Bool
  helpPopupOpen : Bool
  searchPending : Bool
  lastSearchEdit : Option Nat
  searchMatches : List (Nat × List Nat)
  searchScores : List (Nat × Int)
  modeBeforePopup : Option AppMode
  statusMessage : Option (String × StatusLevel)
  signalHistory : List SignalEvent
  needsRefresh : Bool
  paused : Bool
  infoDetailsCache : Option Nat
  infoPaneScroll : Nat
  tableScroll : Nat
  treeSelectedIndex : Nat
  treeRows : List (TreeRow Rat Nat)
  treeCollapsed : List Nat
  treeScroll : Nat
  isRoot : Bool
  parentPid : Nat
  totalMemoryBytes : Nat
  sender : SenderState
  filterPasses : Nat
deriving Repr, DecidableEq

/-- The environment of the session state machine: the Process Data
Provider (`list_processes`, `total_memory_bytes`), the search-crate
oracles, and the signal-engine environment. -/
structure AppCtx (ρ : Type) where
  providerList : Bool → List PInfo
  totalMem : Nat
  search : SearchOracle ρ
  selfPid : Nat
  uid : Nat
  currentUser : Option String
  nixOk : Signal → Bool
  rawKill : Nat → Signal → Option KillErrno

/-- The signal-engine environment derived from the app environment (the
engine always lists with `show_all = true`). -/
def sigCtxOf {ρ : Type} (ctx : AppCtx ρ) : SignalCtx :=
  ⟨ctx.providerList true, ctx.selfPid, ctx.uid, ctx.currentUser, ctx.nixOk, ctx.rawKill⟩

/-- Association-list lookup for the search match/score maps. -/
def assocGet {γ : Type} (m : List (Nat × γ)) (k : Nat) : Option γ :=
  (m.find? (fun e => e.1 == k)).map (fun e => e.2)

/-- Stable insertion into a list sorted by `ord` (insert after equals),
generic element type. -/
def insOrdG {σ : Type} (ord : σ → σ → Ordering) (x : σ) : List σ → List σ
  | [] => [x]
  | y :: ys => if ord y x == .gt then x :: y :: ys else y :: insOrdG ord x ys

/-- Stable sort by an `Ordering` comparator (Rust's stable `sort_by`),
generic element type. -/
def sortOrdG {σ : Type} (ord : σ → σ → Ordering) (l : List σ) : List σ :=
  l.foldl (fun acc x => insOrdG ord x acc) []

/-- `App::compare_processes` from `app.rs`.  `to_lowercase` is modelled
by the ASCII lowercase. -/
def compareProcesses (app : AppState) (a b : PInfo) : Ordering :=
  let o :=
    match app.sortColumn with
    | .cpu => compare a.cpu b.cpu
    | .memory => compare a.mem b.mem
    | .pid => compare a.pid b.pid
    | .name => compare (asciiLower a.name) (asciiLower b.name)
    | .user => compare (asciiLower a.user) (asciiLower b.user)
    | .runtime => compare a.runtime b.runtime
  if app.sortDescending then o.swap else o

/-- `App::clamp_selection` from `app.rs`. -/
def clampSelection (app : AppState) : AppState :=
  let app :=
    if app.filtered.isEmpty then { app with selectedIndex := 0, tableScroll := 0 }
    else if app.selectedIndex ≥ app.filtered.length then
      { app with selectedIndex := app.filtered.length - 1 }
    else app
  let app :=
    if app.selectedIndex < app.tableScroll then { app with tableScroll := app.selectedIndex }
    else app
  match app.filtered.length with
  | 0 => app
  | n + 1 => if app.tableScroll > n then { app with tableScroll := n } else app

/-- `App::set_status` from `app.rs`. -/
def setStatus (app : AppState) (level : StatusLevel) (message : String) : AppState :=
  { app with statusMessage := some (message, level), needsRefresh := true }

/-- `App::invalidate_process_details` from `app.rs`. -/
def invalidateProcessDetails (app : AppState) : AppState :=
  { app with infoDetailsCache := none, infoPaneScroll := 0 }

/-- `App::refresh_pause_state` from `app.rs`. -/
def refreshPauseState (app : AppState) : AppState :=
  { app with paused :=
      (match app.mode with
       | .search => true
       | .signalMenu => true
       | _ => false) ||
      app.historyPopupOpen || app.helpPopupOpen || app.shellConfirm.isSome }

/-- `App::set_mode` from `app.rs`. -/
def setMode (app : AppState) (m : AppMode) : AppState :=
  { refreshPauseState { app with mode := m } with needsRefresh := true }

/-- `App::update_signal_history` from `app.rs`: copy the sender history
newest-first, capped at 10. -/
def updateSignalHistory (app : AppState) : AppState :=
  { app with signalHistory := (historyIter app.sender).take 10 }

/-- `App::filter_by_history` from `app.rs`: keep processes with a
*successful* history entry matching the optional sub-filter; the newest
matching entry's rank decides the score, the whole name is highlighted. -/
def filterByHistory (app : AppState) (processes : List PInfo) (sub : String) :
    AppState × List PInfo :=
  let filterNorm := asciiLower (strTrim sub)
  let matched : List (Nat × Nat) :=
    (historyIter app.sender).enum.foldl
      (fun acc ie =>
        let idx := ie.1
        let event := ie.2
        match event.result with
        | .error _ => acc
        | .ok _ =>
          if !strIsEmpty filterNorm &&
              !(strContains (asciiLower event.signal.name) filterNorm ||
                strContains (asciiLower event.processName) filterNorm) then acc
          else if (assocGet acc event.pid).isSome then acc
          else acc ++ [(event.pid, idx)])
      []
  processes.foldl
    (fun acc proc =>
      match assocGet matched proc.pid with
      | some order =>
        let highlights := fullMatchIndices proc.name
        let a := acc.1
        let a :=
          if !highlights.isEmpty then
            { a with searchMatches := (proc.pid, highlights) :: a.searchMatches }
          else a
        let a := { a with searchScores := (proc.pid, historyWeight - (order : Int)) :: a.searchScores }
        (a, acc.2 ++ [proc])
      | none => acc)
    (app, [])

/-- The `/pattern/flags` rendering used in regex status messages. -/
def renderRegex (pattern flags : String) : String :=
  if strIsEmpty flags then "/" ++ pattern ++ "/" else "/" ++ pattern ++ "/" ++ flags

/-- `App::apply_filters` from `app.rs`: parse the query (invalid regex
clears the result set and reports the error), filter and score by mode,
rank, prune the pinned selection, clamp, and set the empty/first-results
status message.  Increments the ghost `filterPasses` counter. -/
def applyFilters {ρ : Type} (o : SearchOracle ρ) (app : AppState) : AppState :=
  let app := { app with filterPasses := app.filterPasses + 1 }
  let data := app.processes
  let rawQuery := strTrim app.searchQuery
  let app := { app with searchMatches := [], searchScores := [] }
  match parseSearchModeM o rawQuery with
  | .error err =>
    let app := { app with filtered := [], selectedPids := [], tableScroll := 0 }
    let app := setStatus app .error err
    let app := invalidateProcessDetails app
    { app with searchPending := false, lastSearchEdit := none, needsRefresh := true }
  | .ok mode =>
    let step :=
      match mode with
      | .fuzzy q =>
        if !strIsEmpty q then
          data.foldl
            (fun (acc : AppState × List PInfo) proc =>
              match fuzzyMatchProcess o proc q with
              | some hit =>
                let a := acc.1
                let a :=
                  if !hit.nameIndices.isEmpty then
                    { a with searchMatches := (proc.pid, hit.nameIndices) :: a.searchMatches }
                  else a
                let a := { a with searchScores := (proc.pid, hit.score) :: a.searchScores }
                (a, acc.2 ++ [proc])
              | none => acc)
            (app, [])
        else (app, data)
      | .regex _ _ rx =>
        data.foldl
          (fun (acc : AppState × List PInfo) proc =>
            match regexMatchProcess o rx proc with
            | some hit =>
              let a := acc.1
              let a :=
                if !hit.nameIndices.isEmpty then
                  { a with searchMatches := (proc.pid, hit.nameIndices) :: a.searchMatches }
                else a
              let a := { a with searchScores := (proc.pid, hit.score) :: a.searchScores }
              (a, acc.2 ++ [proc])
            | none => acc)
          (app, [])
      | .history sub => filterByHistory app data sub
    let app := step.1
    let data := step.2
    let sortByScore :=
      !app.searchScores.isEmpty &&
        !(match mode with
          | .fuzzy q => strIsEmpty q
          | _ => false)
    let data :=
      if sortByScore then
        sortOrdG
          (fun a b =>
            (compare ((assocGet app.searchScores b.pid).getD 0)
                ((assocGet app.searchScores a.pid).getD 0)).then
              (compareProcesses app a b))
          data
      else sortOrdG (compareProcesses app) data
    let previousLen := app.filtered.length
    let app := { app with filtered := data }
    let app :=
      { app with selectedPids :=
          app.selectedPids.filter (fun pid => app.filtered.any (fun proc => proc.pid == pid)) }
    let app := clampSelection app
    let app :=
      if app.filtered.isEmpty then
        let app := { app with tableScroll := 0 }
        let message :=
          match mode with
          | .fuzzy q =>
            if strIsEmpty q then "No processes found"
            else "No matches for '" ++ q ++ "'"
          | .regex pattern flags _ => "No regex matches for " ++ renderRegex pattern flags
          | .history sub =>
            if strIsEmpty sub then "No recent signal history"
            else "No history entries matching '" ++ sub ++ "'"
        setStatus app .info message
      else
        let app := { app with tableScroll := min app.tableScroll (app.filtered.length - 1) }
        if previousLen == 0 then
          match mode with
          | .fuzzy q =>
            if !strIsEmpty q then setStatus app .info ("Showing matches for '" ++ q ++ "'")
            else app
          | .regex pattern flags _ =>
            setStatus app .info ("Regex filter active: " ++ renderRegex pattern flags)
          | .history sub =>
            setStatus app .info
              (if strIsEmpty sub then "Showing processes with recent signals"
               else "History filter active: '" ++ sub ++ "'")
        else app
    let app := invalidateProcessDetails app
    { app with searchPending := false, lastSearchEdit := none, needsRefresh := true }

/-- `App::tick` from `app.rs`: the debounce check.  Instants are
milliseconds; `saturating_duration_since` is `Nat` subtraction;
`SEARCH_DEBOUNCE` is 100 ms. -/
def tick {ρ : Type} (o : SearchOracle ρ) (app : AppState) (now : Nat) : AppState :=
  if app.searchPending then
    match app.lastSearchEdit with
    | some last => if now - last ≥ 100 then applyFilters o app else app
    | none => applyFilters o app
  else app

/-- `App::mark_search_dirty` from `app.rs`: mark pending with the current
instant, then immediately apply the filters. -/
def markSearchDirty {ρ : Type} (o : SearchOracle ρ) (app : AppState) (now : Nat) :
    AppState :=
  applyFilters o { app with searchPending := true, lastSearchEdit := some now }

/-- `App::flush_search_filters` from `app.rs`. -/
def flushSearchFilters {ρ : Type} (o : SearchOracle ρ) (app : AppState) : AppState :=
  if app.searchPending then applyFilters o app else app

/-- `App::handle_search_input` from `app.rs`. -/
def handleSearchInput {ρ : Type} (o : SearchOracle ρ) (app : AppState)
    (event : KeyEvent) (now : Nat) : AppState × Bool :=
  match event.code with
  | .esc => (setMode (flushSearchFilters o app) .normal, false)
  | .enter => (setMode (flushSearchFilters o app) .normal, false)
  | .backspace =>
    if strIsEmpty app.searchQuery then ({ app with needsRefresh := true }, false)
    else
      (markSearchDirty o { app with searchQuery := String.mk app.searchQuery.toList.dropLast }
        now, false)
  | .char c =>
    if !event.ctrl && !event.alt then
      (markSearchDirty o { app with searchQuery := app.searchQuery.push c } now, false)
    else (app, false)
  | .other => (app, false)

/-- `App::rebuild_tree_nodes` from `app.rs` at the state level: no-op
when the tree view is closed; otherwise retain the collapse set, rebuild
the rows (see `rebuildTreeRows`), relocate the previously selected pid and
clamp the scroll. -/
def rebuildTreeNodesA {ρ : Type} (fuel : Nat) (ctx : AppCtx ρ) (app : AppState) :
    Option AppState :=
  if !app.treeViewOpen then some app
  else
    let procs := ctx.providerList true
    let collapsedRetained := app.treeCollapsed.filter (fun pid => (mapLookup procs pid).isSome)
    match (rebuildTreeRows fuel (fun a b : Rat => compare a b) app.parentPid procs
        (fun p => collapsedRetained.contains p) : Option (List (TreeRow Rat Nat))) with
    | none => none
    | some rows =>
      let previousPid : Option Nat :=
        (app.treeRows.get? app.treeSelectedIndex).map (fun row => row.pid)
      let app := { app with treeCollapsed := collapsedRetained, treeRows := rows }
      let app :=
        match previousPid with
        | some pid =>
          match List.findIdx? (fun row : TreeRow Rat Nat => row.pid == pid) rows with
          | some idx => { app with treeSelectedIndex := idx }
          | none => { app with treeSelectedIndex := 0 }
        | none => { app with treeSelectedIndex := 0 }
      let app := if app.treeRows.isEmpty then { app with treeSelectedIndex := 0 } else app
      some { app with treeScroll := min app.treeScroll (app.treeRows.length - 1) }

/-- `App::refresh_process_data` from `app.rs`: re-list from the provider,
prune the pinned selection, re-apply the filters, and rebuild the tree
when open. -/
def refreshProcessData {ρ : Type} (fuel : Nat) (ctx : AppCtx ρ) (app : AppState) :
    Option AppState :=
  let app := { app with processes := ctx.providerList app.showAllProcesses,
                        totalMemoryBytes := ctx.totalMem }
  let app :=
    { app with selectedPids :=
        app.selectedPids.filter (fun pid => app.processes.any (fun proc => proc.pid == pid)) }
  let app := applyFilters ctx.search app
  rebuildTreeNodesA fuel ctx app

/-- `App::force_refresh_processes` from `app.rs`. -/
def forceRefreshProcesses {ρ : Type} (fuel : Nat) (ctx : AppCtx ρ) (app : AppState) :
    Option AppState :=
  let paused := app.paused
  match refreshProcessData fuel ctx { app with paused := false } with
  | none => none
  | some app => some { app with paused := paused }

/-- `App::process_snapshot` from `app.rs`. -/
def processSnapshot (app : AppState) (pid : Nat) : Option PInfo :=
  match app.processes.find? (fun proc => proc.pid == pid) with
  | some info => some info
  | none => app.filtered.find? (fun proc => proc.pid == pid)

/-- `App::process_name_for_pid` from `app.rs`. -/
def processNameForPid (app : AppState) (pid : Nat) : Option String :=
  match app.processes.find? (fun proc => proc.pid == pid) with
  | some info => some info.name
  | none => (app.treeRows.find? (fun row => row.pid == pid)).map (fun row => row.name)

/-- `App::risk_for_pid` from `app.rs`. -/
def riskForPid (app : AppState) (pid : Nat) : Option RiskInfo :=
  match processSnapshot app pid with
  | some info => assessRisk app.parentPid info
  | none => (app.treeRows.find? (fun row => row.pid == pid)).bind (fun row => row.risk)

/-- `App::friendly_error_message` from `app.rs`. -/
def friendlyErrorMessage (error : String) : String :=
  let lowered := asciiLower error
  if strContains lowered "permission" then
    "Permission denied. Run with sudo or select a user-owned process."
  else if strContains lowered "pid 1" then "Cannot kill init process"
  else if strContains lowered "pkillr" then "Cannot kill pkillr itself"
  else if strContains lowered "shell" && strContains lowered "parent" then
    "Refusing to kill your current shell"
  else error

/-- `App::report_kill_error` from `app.rs`. -/
def reportKillError (app : AppState) (error : String) : AppState :=
  setStatus app .error (friendlyErrorMessage error)

/-- Rust `Iterator::max_by_key`: the last element with the maximal key. -/
def maxByKeyLast {σ : Type} (key : σ → Nat) (l : List σ) : Option σ :=
  l.foldl
    (fun best x =>
      match best with
      | none => some x
      | some b => if key x ≥ key b then some x else some b)
    none

/-- `App::report_kill_success` from `app.rs`. -/
def reportKillSuccess (app : AppState) (successes : List (Nat × String × Option RiskInfo))
    (signal : Signal) : AppState :=
  if successes.isEmpty then app
  else
    let highestRisk :=
      maxByKeyLast (fun r => r.level.rank) (successes.filterMap (fun s => s.2.2))
    let baseLevel :=
      match highestRisk with
      | some risk =>
        match risk.level with
        | .critical => StatusLevel.error
        | .elevated => StatusLevel.warning
      | none => StatusLevel.info
    let message :=
      if successes.length == 1 then
        match successes with
        | (pid, name, _) :: _ =>
          match highestRisk with
          | some risk =>
            "Killed " ++ name ++ " (PID " ++ toString pid ++ ") with " ++ signal.name ++
              " — caution: " ++ risk.reason
          | none => "Killed " ++ name ++ " (PID " ++ toString pid ++ ") with " ++ signal.name
        | [] => ""
      else
        match highestRisk with
        | some risk =>
          "Killed " ++ toString successes.length ++ " processes with " ++ signal.name ++
            " — caution: " ++ risk.reason
        | none =>
          "Killed " ++ toString successes.length ++ " processes with " ++ signal.name
    let level := if baseLevel == .info && isDangerousSignal signal then .warning else baseLevel
    setStatus app level message

/-- `App::dispatch_direct` from `app.rs`: send to every target, recording
successes (unpinning each) and failures, refresh history and process
data, then report — first error wins the status. -/
def dispatchDirect {ρ : Type} (fuel : Nat) (ctx : AppCtx ρ) (app : AppState)
    (targets : List Nat) (signal : Signal) : Option (AppState × Bool) :=
  let loop := targets.foldl
    (fun (acc : AppState × List (Nat × String × Option RiskInfo) × List (Nat × String × String))
        pid =>
      let a := acc.1
      let name := (processNameForPid a pid).getD ("PID " ++ toString pid)
      let risk := riskForPid a pid
      let send := sendSignalS (sigCtxOf ctx) a.sender pid signal
      let a := { a with sender := send.1 }
      match send.2 with
      | .ok _ =>
        ({ a with selectedPids := a.selectedPids.erase pid },
         acc.2.1 ++ [(pid, name, risk)], acc.2.2)
      | .error err => (a, acc.2.1, acc.2.2 ++ [(pid, name, err)]))
    (app, [], [])
  let app := loop.1
  let successes := loop.2.1
  let errors := loop.2.2
  let app := updateSignalHistory app
  match forceRefreshProcesses fuel ctx app with
  | none => none
  | some app =>
    let app := invalidateProcessDetails app
    let app :=
      if errors.isEmpty then
        if !successes.isEmpty then reportKillSuccess app successes signal else app
      else
        match errors with
        | (_, _, err) :: _ => reportKillError app err
        | [] => app
    some (app, !successes.isEmpty || !errors.isEmpty)

/-- The target loop of `App::dispatch_tree`: per root, note the risk, run
the tree kill through the sender, count killed processes, and break at the
first error. -/
def dispatchTreeLoop {ρ : Type} (fuel : Nat) (ctx : AppCtx ρ) (signal : Signal) :
    List Nat → AppState → Nat → List String → List RiskInfo →
    Option (AppState × Nat × List String × List RiskInfo)
  | [], app, total, errs, risks => some (app, total, errs, risks)
  | pid :: rest, app, total, errs, risks =>
    let risks :=
      match riskForPid app pid with
      | some r => risks ++ [r]
      | none => risks
    match killProcessTreeS fuel (sigCtxOf ctx) app.sender pid signal with
    | none => none
    | some out =>
      let app := { app with sender := out.1 }
      match out.2 with
      | .ok killed =>
        dispatchTreeLoop fuel ctx signal rest
          { app with selectedPids := app.selectedPids.erase pid }
          (total + killed.length) errs risks
      | .error err => some (app, total, errs ++ [err], risks)

/-- `App::dispatch_tree` from `app.rs`: the loop above, then history and
process refresh, then the status: on success the
"N processes terminated" count (escalated by the highest risk note and by
dangerous signals), on failure the translated first error. -/
def dispatchTree {ρ : Type} (fuel : Nat) (ctx : AppCtx ρ) (app : AppState)
    (targets : List Nat) (signal : Signal) : Option (AppState × Bool) :=
  match dispatchTreeLoop fuel ctx signal targets app 0 [] [] with
  | none => none
  | some out =>
    let app := out.1
    let total := out.2.1
    let errors := out.2.2.1
    let riskNotes := out.2.2.2
    let app := updateSignalHistory app
    match forceRefreshProcesses fuel ctx app with
    | none => none
    | some app =>
      let app := invalidateProcessDetails app
      let app :=
        if errors.isEmpty then
          if total > 0 then
            match maxByKeyLast (fun r => r.level.rank) riskNotes with
            | some risk =>
              let level :=
                match risk.level with
                | .critical => StatusLevel.error
                | .elevated => StatusLevel.warning
              let level :=
                if level == .info && isDangerousSignal signal then .warning else level
              setStatus app level
                ("Killed process tree: " ++ toString total ++
                  " processes terminated — caution: " ++ risk.reason)
            | none =>
              let level := if isDangerousSignal signal then StatusLevel.warning else .info
              setStatus app level
                ("Killed process tree: " ++ toString total ++ " processes terminated")
          else app
        else
          match errors.head? with
          | some err => reportKillError app err
          | none => app
      some (app, total > 0 || !errors.isEmpty)

/-- `App::dispatch_signal_targets` from `app.rs`: empty-target guard,
then the shell-parent confirmation gate (non-root callers without the
override whose target set contains their own parent pid defer the whole
operation into `shell_confirm`), then the direct or tree dispatch. -/
def dispatchSignalTargets {ρ : Type} (fuel : Nat) (ctx : AppCtx ρ) (app : AppState)
    (targets : List Nat) (signal : Signal) (mode : KillMode)
    (allowShellOverride : Bool) : Option (AppState × Bool) :=
  if targets.isEmpty then some (setStatus app .warning "no process selected", false)
  else if !allowShellOverride && !app.isRoot &&
      targets.any (fun pid => pid == app.parentPid) then
    let pend :=
      match mode with
      | KillMode.direct => PendingKill.direct targets signal
      | KillMode.tree => PendingKill.tree targets signal
    let app := { app with shellConfirm := some pend }
    let app := setStatus app .warning
      ("This is your shell process (PID " ++ toString app.parentPid ++ "). Continue? (y/n)")
    let app := { app with needsRefresh := true }
    some (refreshPauseState app, false)
  else
    match
      (match mode with
       | .direct => dispatchDirect fuel ctx app targets signal
       | .tree => dispatchTree fuel ctx app targets signal) with
    | none => none
    | some out =>
      some (refreshPauseState { out.1 with needsRefresh := true }, out.2)

/-- `App::handle_shell_confirm_input` from `app.rs`: with a pending
confirmation, `y` takes and executes it with the shell override enabled,
`n`/Escape cancels with a status message, anything else re-prompts; with
no pending confirmation the handler passes the event through (`none`). -/
def handleShellConfirmInput {ρ : Type} (fuel : Nat) (ctx : AppCtx ρ) (app : AppState)
    (event : KeyEvent) : Option (AppState × Option Bool) :=
  match app.shellConfirm with
  | none => some (app, none)
  | some pending =>
    match event.code with
    | .char c =>
      if c == 'y' || c == 'Y' then
        let app := { app with shellConfirm := none }
        match
          (match pending with
           | .direct targets signal =>
             dispatchSignalTargets fuel ctx app targets signal .direct true
           | .tree targets signal =>
             dispatchSignalTargets fuel ctx app targets signal .tree true) with
        | none => none
        | some out => some (refreshPauseState out.1, some false)
      else if c == 'n' || c == 'N' then
        let app := { app with shellConfirm := none }
        let app := setStatus app .info "cancelled shell kill"
        let app := { app with needsRefresh := true }
        some (refreshPauseState app, some false)
      else
        let app := setStatus app .warning "Press y to continue or n to cancel"
        some ({ app with needsRefresh := true }, some false)
    | .esc =>
      let app := { app with shellConfirm := none }
      let app := setStatus app .info "cancelled shell kill"
      let app := { app with needsRefresh := true }
      some (refreshPauseState app, some false)
    | _ =>
      let app := setStatus app .warning "Press y to continue or n to cancel"
      some ({ app with needsRefresh := true }, some false)

/-- C8: when the query parses to an invalid regex, `apply_filters`
surfaces the "invalid regex: …" error status, clears the filtered result
set (and the pinned selection and scroll that index into it), resets the
pending-search state, and touches nothing else — in particular the
underlying full process list (`processes`), the query, the mode and the
history are all preserved, as the right-hand record update shows. -/
theorem c8_invalid_regex_clears_results_keeps_processes :
    ∀ {ρ : Type} (o : SearchOracle ρ) (app : AppState) (err : String),
      parseSearchModeM o (strTrim app.searchQuery) = .error err →
      applyFilters o app =
        { app with
          filterPasses := app.filterPasses + 1,
          searchMatches := [], searchScores := [],
          filtered := [], selectedPids := [], tableScroll := 0,
          statusMessage := some (err, .error),
          needsRefresh := true,
          infoDetailsCache := none, infoPaneScroll := 0,
          searchPending := false, lastSearchEdit := none } := by
  intro ρ o app err h
  simp only [applyFilters, h]
  rfl

/-- A search oracle whose regex builder rejects every pattern (as the
`regex` crate does for `(`), with inert fuzzy scoring. -/
def probeOracle : SearchOracle Unit :=
  { build := fun _ _ _ _ => .error "unclosed group",
    isMatch := fun _ _ => false,
    findSpans := fun _ _ => [],
    fuzzyIndices := fun _ _ => none,
    fuzzyScore := fun _ _ => none }

/-- A baseline concrete session state (non-root caller, shell parent
pid 42). -/
def baseApp : AppState :=
  { processes := [], filtered := [], selectedIndex := 0, selectedPids := [],
    mode := .normal, searchQuery := "", sortColumn := .cpu, sortDescending := true,
    showAllProcesses := false, infoPaneOpen := false, infoFocus := false,
    treeViewOpen := false, signalMenuOpen := false, shellConfirm := none,
    historyPopupOpen := false, helpPopupOpen := false, searchPending := false,
    lastSearchEdit := none, searchMatches := [], searchScores := [],
    modeBeforePopup := none, statusMessage := none, signalHistory := [],
    needsRefresh := false, paused := false, infoDetailsCache := none,
    infoPaneScroll := 0, tableScroll := 0, treeSelectedIndex := 0, treeRows := [],
    treeCollapsed := [], treeScroll := 0, isRoot := false, parentPid := 42,
    totalMemoryBytes := 0, sender := ⟨[]⟩, filterPasses := 0 }

/-- The concrete state for the C8 witness: query `/(/` over a non-empty
process list. -/
def c8App : AppState :=
  { baseApp with
    searchQuery := "/(/", processes := [chainP10],
    filtered := [chainP10], selectedPids := [10] }

/-- Witness for C8 on the query `/(/`: the full process list survives the
invalid-regex pass, the filtered set is emptied and the error status is
set. -/
theorem c8_witness :
    (applyFilters probeOracle c8App).processes = [chainP10] ∧
    (applyFilters probeOracle c8App).filtered = [] ∧
    (applyFilters probeOracle c8App).searchQuery = "/(/" ∧
    (applyFilters probeOracle c8App).statusMessage =
      some ("invalid regex: unclosed group", StatusLevel.error) := by
  have h := c8_invalid_regex_clears_results_keeps_processes probeOracle c8App
    "invalid regex: unclosed group" rfl
  rw [h]
  exact ⟨rfl, rfl, rfl, rfl⟩

/-- C7: the shell-guard confirmation gate.  Conjunct 1: a non-root caller
without the override whose target set contains its own parent pid gets the
whole operation deferred — the result state differs from the input only in
the stored `PendingConfirmation`, the warning status, the dirty flag and
the paused flag (in particular the signal sender, its history and the
process data are untouched: nothing is signaled), and the dispatch
reports `false`.  Conjunct 2: with a pending confirmation, a `y` key
executes exactly the deferred operation with the shell override enabled.
Conjunct 3: with the override enabled the gate is bypassed entirely and
the direct/tree dispatch runs for every caller and target set. -/
theorem c7_shell_guard_defers_and_confirm_executes :
    (∀ {ρ : Type} (fuel : Nat) (ctx : AppCtx ρ) (app : AppState) (targets : List Nat)
        (signal : Signal) (mode : KillMode),
      app.isRoot = false → targets ≠ [] → app.parentPid ∈ targets →
      dispatchSignalTargets fuel ctx app targets signal mode false =
        some ({ app with
          shellConfirm := some
            (match mode with
             | KillMode.direct => PendingKill.direct targets signal
             | KillMode.tree => PendingKill.tree targets signal),
          statusMessage := some
            ("This is your shell process (PID " ++ toString app.parentPid ++
              "). Continue? (y/n)", .warning),
          needsRefresh := true,
          paused := true }, false)) ∧
    (∀ {ρ : Type} (fuel : Nat) (ctx : AppCtx ρ) (app : AppState) (event : KeyEvent)
        (pending : PendingKill),
      app.shellConfirm = some pending → event.code = KeyCode.char 'y' →
      handleShellConfirmInput fuel ctx app event =
        match
          (match pending with
           | PendingKill.direct targets signal =>
             dispatchSignalTargets fuel ctx { app with shellConfirm := none } targets
               signal KillMode.direct true
           | PendingKill.tree targets signal =>
             dispatchSignalTargets fuel ctx { app with shellConfirm := none } targets
               signal KillMode.tree true) with
        | none => none
        | some out => some (refreshPauseState out.1, some false)) ∧
    (∀ {ρ : Type} (fuel : Nat) (ctx : AppCtx ρ) (app : AppState) (targets : List Nat)
        (signal : Signal) (mode : KillMode),
      targets ≠ [] →
      dispatchSignalTargets fuel ctx app targets signal mode true =
        match
          (match mode with
           | KillMode.direct => dispatchDirect fuel ctx app targets signal
           | KillMode.tree => dispatchTree fuel ctx app targets signal) with
        | none => none
        | some out =>
          some (refreshPauseState { out.1 with needsRefresh := true }, out.2)) := by
  refine ⟨?_, ?_, ?_⟩
  · intro ρ fuel ctx app targets signal mode hroot hne hmem
    have hne' : targets.isEmpty = false := by
      cases targets with
      | nil => exact absurd rfl hne
      | cons a l => rfl
    have hany : targets.any (fun pid => pid == app.parentPid) = true := by
      simp only [List.any_eq_true]
      exact ⟨app.parentPid, hmem, by simp⟩
    simp only [dispatchSignalTargets, hne', Bool.false_eq_true, if_false, hroot,
      Bool.not_false, Bool.true_and, hany, Bool.and_true, if_true, setStatus,
      refreshPauseState, Option.isSome_some, Bool.or_true]
  · intro ρ fuel ctx app event pending hconf hcode
    simp only [handleShellConfirmInput, hconf, hcode]
    rfl
  · intro ρ fuel ctx app targets signal mode hne
    have hne' : targets.isEmpty = false := by
      cases targets with
      | nil => exact absurd rfl hne
      | cons a l => rfl
    simp only [dispatchSignalTargets, hne', Bool.false_eq_true, if_false,
      Bool.not_true, Bool.false_and, if_false]

/-- The concrete environment for the C7 witness. -/
def ctx0 : AppCtx Unit :=
  { providerList := fun _ => [], totalMem := 0, search := probeOracle,
    selfPid := 999, uid := 1000, currentUser := some "u",
    nixOk := fun _ => true, rawKill := fun _ _ => none }

/-- Witness for C7 at a concrete non-root state (shell parent pid 42,
target set [42]): the operation is deferred into `shellConfirm` with the
warning, and nothing is signaled. -/
theorem c7_witness :
    dispatchSignalTargets 3 ctx0 baseApp [42] .Sigterm .direct false =
      some ({ baseApp with
        shellConfirm := some (PendingKill.direct [42] .Sigterm),
        statusMessage :=
          some ("This is your shell process (PID 42). Continue? (y/n)", .warning),
        needsRefresh := true,
        paused := true }, false) := by
  have h := c7_shell_guard_defers_and_confirm_executes.1 3 ctx0 baseApp [42]
    .Sigterm .direct rfl (by simp) (by decide)
  simpa using h

/-- The concrete state for the C10 run: search mode, empty snapshot. -/
def searchApp0 : AppState := { baseApp with mode := .search }

/-- State after typing `a` at t = 0 ms. -/
def c10App1 : AppState :=
  (handleSearchInput probeOracle searchApp0 ⟨KeyCode.char 'a', false, false⟩ 0).1

/-- State after typing `b` at t = 50 ms (within the 100 ms window). -/
def c10App2 : AppState :=
  (handleSearchInput probeOracle c10App1 ⟨KeyCode.char 'b', false, false⟩ 50).1

/-- C10 (as stated, refuted — no settled pass ever executes): each of the
two keystrokes 50 ms apart immediately runs one full filter pass
(`filterPasses` goes 0 → 1 → 2), but `mark_search_dirty` calls
`apply_filters` at once and `apply_filters` clears `search_pending`, so
after the second keystroke nothing is pending and the tick 950 ms later —
far past the 100 ms debounce window — runs no settled pass at all: `tick`
is the identity, as are the Enter-flush paths.  The claim's "exactly one
settled filter pass executes after the edits go idle" is false (zero
execute), and rapid edits are not coalesced (each ran a full pass). -/
theorem c10_no_settled_debounce_pass :
    c10App1.filterPasses = 1 ∧
    c10App2.filterPasses = 2 ∧
    c10App2.searchPending = false ∧
    c10App2.lastSearchEdit = none ∧
    tick probeOracle c10App2 1000 = c10App2 ∧
    flushSearchFilters probeOracle c10App2 = c10App2 ∧
    (handleSearchInput probeOracle c10App2 ⟨KeyCode.enter, false, false⟩ 60).1 =
      setMode c10App2 .normal := by
  have hp : c10App2.searchPending = false := rfl
  refine ⟨rfl, rfl, rfl, rfl, ?_, ?_, ?_⟩
  · simp [tick, hp]
  · simp [flushSearchFilters, hp]
  · simp [handleSearchInput, flushSearchFilters, hp]

end Pkillr
